import Mathlib

/-!
Complaint management system: lifecycle, payment and access-control handlers.

A shallow embedding of the Express route handlers of the backend
(`backend/routes/admin.routes.js`, `backend/routes/payment.routes.js`,
`backend/routes/complaint.routes.js`, `backend/routes/auth.routes.js`,
`backend/middleware/auth.js`) over the Mongoose schema of
`backend/models/Complaint.js`, and of the client route guard of `src/App.jsx`.

Conventions of the embedding:

* the two collections are lists; a handler is a function from the store, the
  environment (clock and random source) and the request to the new store and
  the HTTP reply;
* a request body is a record of optional fields (`none` = the key is absent);
  JavaScript truthiness of a string is "non-empty", of a number "non-zero";
* JS numbers carried by the payment fields are integers; the handlers only
  test them for presence and truthiness and copy them;
* an exception thrown inside a handler is caught by its `try/catch` and
  answered with status 500, the store being left as it was.
-/

namespace ComplaintSystem

/-- Mongo object identifiers. -/
abbrev ObjectId := Nat

/-- The clock (`Date.now()`) and the value of `Math.floor(Math.random() * 1000)`
read by a handler. -/
structure Env where
  now : Nat
  rand : Nat
deriving DecidableEq, Repr

/-- The `paymentDetails` nested path of `ComplaintSchema`. The handler also
builds a `paymentDate` key, which the schema does not declare and which is
therefore not persisted. -/
structure PaymentDetails where
  transactionId : String
  amount : Int
  currency : String
  paymentMethod : String
  cardholderName : String
  cardLastFour : String
  doorNumber : Option String
  status : String
deriving DecidableEq, Repr

/-- A document of `ComplaintSchema`. The `attachments` and `comments` arrays
are left out: no route handler reads or writes them. -/
structure Complaint where
  id : ObjectId
  user : ObjectId
  title : String
  description : String
  category : String
  status : String
  paymentAmount : Int
  paymentStatus : String
  paymentDate : Option Nat
  paymentDetails : Option PaymentDetails
  priority : String
  doorNumber : Option String
  assignedTo : Option ObjectId
  createdAt : Nat
  updatedAt : Nat
deriving DecidableEq, Repr

/-- Modelled from the spec: `backend/models/User.js` is not among the sources;
the account record of section 3 (id, name, email, password hash, role, door
number). -/
structure User where
  id : ObjectId
  name : String
  email : String
  password : String
  role : String
  doorNumber : Option String
deriving DecidableEq, Repr

/-- The document store: both collections and the next identifier the driver
hands out. -/
structure Store where
  users : List User
  complaints : List Complaint
  nextId : ObjectId
deriving DecidableEq, Repr

/-- The HTTP reply of a handler: `res.json(body)` or `res.status(code)`. -/
inductive Reply (α : Type) where
  | ok (body : α)
  | fail (code : Nat) (msg : String)
deriving DecidableEq, Repr

/-- The outcome of `jwt.verify` on the request headers: no token, a token that
fails verification, or a verified token carrying a user id. -/
inductive Token where
  | missing
  | invalid
  | valid (userId : ObjectId)
deriving DecidableEq, Repr

/-- `a || b` for an optional string field. -/
def strOr (a : Option String) (b : String) : String :=
  match a with
  | some x => if x = "" then b else x
  | none => b

/-- `a || b` for an optional numeric field. -/
def numOr (a : Option Int) (b : Int) : Int :=
  match a with
  | some x => if x = 0 then b else x
  | none => b

/-- `s.slice(-4)`: the last four characters, all of `s` when it is shorter.
Characters are code points here and UTF-16 units in the source; they agree on
the digits of a card number. -/
def slice4 (s : String) : String :=
  ⟨s.data.drop (s.data.length - 4)⟩

/-- `Complaint.findById`. -/
def findById (s : Store) (id : ObjectId) : Option Complaint :=
  s.complaints.find? (fun c => c.id == id)

/-- `User.findById`. -/
def findUser (s : Store) (id : ObjectId) : Option User :=
  s.users.find? (fun u => u.id == id)

def statusEnum : List String := ["pending", "in-progress", "resolved", "rejected", "closed"]

def paymentStatusEnum : List String := ["pending", "completed", "failed"]

def priorityEnum : List String := ["low", "medium", "high"]

/-- Schema validation run by `save` on the whole document, loaded paths
included: the `required` string paths are non-empty and the three `enum`
paths hold one of their values. -/
def validate (c : Complaint) : Bool :=
  decide (c.title ≠ "") && decide (c.description ≠ "") && decide (c.category ≠ "")
    && decide (c.status ∈ statusEnum) && decide (c.paymentStatus ∈ paymentStatusEnum)
    && decide (c.priority ∈ priorityEnum)

/-- The hook `ComplaintSchema.pre('save', ...)`: stamp `updatedAt`. -/
def preSave (env : Env) (c : Complaint) : Complaint :=
  { c with updatedAt := env.now }

/-- Write a loaded document back under its identifier. -/
def replaceDoc (s : Store) (doc : Complaint) : Store :=
  { s with complaints := s.complaints.map (fun d => if d.id = doc.id then doc else d) }

/-- `complaint.save()` on a loaded document: validation, then the `pre('save')`
hook, then the document replaces the stored one. `none` is the thrown
validation error. -/
def save (s : Store) (env : Env) (c : Complaint) : Option (Store × Complaint) :=
  if validate c then some (replaceDoc s (preSave env c), preSave env c) else none

/-- `newComplaint.save()` on a fresh document. -/
def insert (s : Store) (env : Env) (c : Complaint) : Option (Store × Complaint) :=
  if validate c then
    some ({ s with complaints := s.complaints ++ [preSave env c], nextId := s.nextId + 1 },
      preSave env c)
  else none

/-- `complaint.deleteOne()`. -/
def deleteOne (s : Store) (id : ObjectId) : Store :=
  { s with complaints := s.complaints.filter (fun d => d.id != id) }

/-- The middleware `protect` of `middleware/auth.js`: the user record of the
verified token, or the message of the 401 reply. -/
def protect (s : Store) (tok : Token) : Except String User :=
  match tok with
  | .missing => .error "Not authorized, no token"
  | .invalid => .error "Not authorized, token failed"
  | .valid uid =>
    match findUser s uid with
    | some u => .ok u
    | none => .error "User not found"

/-- The middleware `admin` of `middleware/auth.js`. -/
def admin (u : User) : Bool :=
  decide (u.role = "admin")

/-! ## Request bodies -/

/-- Body of `PUT /api/admin/complaints/:id`. -/
structure StatusBody where
  status : Option String := none
  adminComments : Option String := none
  assignedTo : Option ObjectId := none
  paymentAmount : Option Int := none
  paymentStatus : Option String := none
deriving DecidableEq, Repr

/-- The `cardDetails` object sent by the payment page. -/
structure CardDetails where
  cardNumber : Option String := none
  cardName : Option String := none
  expiryDate : Option String := none
  cvv : Option String := none
deriving DecidableEq, Repr

/-- Body of `POST /api/complaints/:id/payment`: the five keys the handler
destructures. Any other key of the body is not read. -/
structure PayBody where
  amount : Option Int := none
  currency : Option String := none
  paymentMethod : Option String := none
  cardholderName : Option String := none
  cardDetails : Option CardDetails := none
deriving DecidableEq, Repr

/-- Body of `POST /api/complaints`. -/
structure CreateBody where
  title : Option String := none
  description : Option String := none
  category : Option String := none
  priority : Option String := none
  doorNumber : Option String := none
deriving DecidableEq, Repr

/-- Body of `PUT /api/complaints/:id`. -/
structure EditBody where
  title : Option String := none
  description : Option String := none
  category : Option String := none
  priority : Option String := none
deriving DecidableEq, Repr

/-! ## Handlers -/

/-- The assignments of the admin update handler (admin.routes.js, lines 42-55)
to the loaded document. `adminComments` is assigned too, but it is not a path
of `ComplaintSchema`. -/
def applyStatusBody (c : Complaint) (body : StatusBody) : Complaint :=
  let c1 := { c with
    status := strOr body.status c.status
    assignedTo := body.assignedTo <|> c.assignedTo }
  let c2 := match body.paymentAmount with
    | some a => { c1 with paymentAmount := a }
    | none => c1
  match body.paymentStatus with
  | some p => if p = "" then c2 else { c2 with paymentStatus := p }
  | none => c2

/-- Handler of `PUT /api/admin/complaints/:id` (admin.routes.js, lines 35-64). -/
def updateComplaintStatus (s : Store) (env : Env) (id : ObjectId) (body : StatusBody) :
    Store × Reply Complaint :=
  match findById s id with
  | none => (s, .fail 404 "Complaint not found")
  | some c =>
    match save s env (applyStatusBody c body) with
    | some (s', doc) => (s', .ok doc)
    | none => (s, .fail 500 "Server Error")

/-- The expression `cardDetails?.cardNumber ? cardDetails.cardNumber.slice(-4) : '****'`. -/
def cardLastFour (cardDetails : Option CardDetails) : String :=
  match cardDetails with
  | none => "****"
  | some d =>
    match d.cardNumber with
    | none => "****"
    | some n => if n = "" then "****" else slice4 n

/-- The `paymentDetails` object built by the payment handler
(payment.routes.js, lines 36-47). -/
def paymentDetails (env : Env) (c : Complaint) (owner : User) (body : PayBody) : PaymentDetails :=
  { transactionId := "TXN" ++ toString env.now ++ toString env.rand
    amount := numOr body.amount (numOr (some c.paymentAmount) 500)
    currency := strOr body.currency "INR"
    paymentMethod := strOr body.paymentMethod "card"
    cardholderName := strOr body.cardholderName (strOr (some owner.name) "Not provided")
    cardLastFour := cardLastFour body.cardDetails
    doorNumber := owner.doorNumber
    status := "completed" }

/-- The assignments of the payment handler (payment.routes.js, lines 49-53)
to the loaded document. -/
def applyPayment (env : Env) (c : Complaint) (owner : User) (body : PayBody) : Complaint :=
  { c with
    paymentDetails := some (paymentDetails env c owner body)
    paymentStatus := "completed"
    paymentDate := some env.now
    status := "closed" }

/-- Handler of `POST /api/complaints/:id/payment` (payment.routes.js, lines 9-62)
for the authenticated `reqUser`. The owner is loaded by `populate`; when the
owner record is gone `complaint.user` is null and reading its `_id` throws. -/
def processPayment (s : Store) (env : Env) (reqUser : User) (id : ObjectId) (body : PayBody) :
    Store × Reply Complaint :=
  match findById s id with
  | none => (s, .fail 404 "Complaint not found")
  | some c =>
    match findUser s c.user with
    | none => (s, .fail 500 "Server error")
    | some owner =>
      if owner.id ≠ reqUser.id then
        (s, .fail 403 "Not authorized to make payment for this complaint")
      else if c.status ≠ "resolved" then
        (s, .fail 400 "Payment can only be made for resolved complaints")
      else
        match save s env (applyPayment env c owner body) with
        | some (s', doc) => (s', .ok doc)
        | none => (s, .fail 500 "Server error")

/-- The document built by the create handler (complaint.routes.js, lines 16-24),
with the schema defaults filled in. -/
def newComplaint (s : Store) (env : Env) (reqUser : User) (body : CreateBody) : Complaint :=
  let user := findUser s reqUser.id
  { id := s.nextId
    user := reqUser.id
    title := body.title.getD ""
    description := body.description.getD ""
    category := body.category.getD ""
    status := "pending"
    paymentAmount := 0
    paymentStatus := "pending"
    paymentDate := none
    paymentDetails := none
    priority := strOr body.priority "medium"
    doorNumber :=
      match body.doorNumber with
      | some d => if d = "" then user.bind (fun u => u.doorNumber) else some d
      | none => user.bind (fun u => u.doorNumber)
    assignedTo := none
    createdAt := env.now
    updatedAt := env.now }

/-- Handler of `POST /api/complaints` (complaint.routes.js, lines 9-32). -/
def submitComplaint (s : Store) (env : Env) (reqUser : User) (body : CreateBody) :
    Store × Reply Complaint :=
  match insert s env (newComplaint s env reqUser body) with
  | some (s', saved) => (s', .ok saved)
  | none => (s, .fail 500 "Server error")

/-- The assignments of the edit handler (complaint.routes.js, lines 73-76). -/
def applyEdit (c : Complaint) (body : EditBody) : Complaint :=
  { c with
    title := strOr body.title c.title
    description := strOr body.description c.description
    category := strOr body.category c.category
    priority := strOr body.priority c.priority }

/-- Handler of `PUT /api/complaints/:id` (complaint.routes.js, lines 53-84). -/
def updateComplaint (s : Store) (env : Env) (reqUser : User) (id : ObjectId) (body : EditBody) :
    Store × Reply Complaint :=
  match findById s id with
  | none => (s, .fail 404 "Complaint not found")
  | some c =>
    if c.user ≠ reqUser.id then
      (s, .fail 403 "Not authorized to edit this complaint")
    else if c.status ≠ "pending" then
      (s, .fail 400 "Cannot edit complaint - it is no longer in pending status")
    else
      match save s env (applyEdit c body) with
      | some (s', doc) => (s', .ok doc)
      | none => (s, .fail 500 "Server error")

/-- Handler of `DELETE /api/complaints/:id` (complaint.routes.js, lines 115-133);
the reply body of a success is the message only. -/
def removeComplaint (s : Store) (reqUser : User) (id : ObjectId) : Store × Reply Unit :=
  match findById s id with
  | none => (s, .fail 404 "Complaint not found")
  | some c =>
    if c.user ≠ reqUser.id then (s, .fail 401 "Not authorized")
    else (deleteOne s id, .ok ())

/-- Handler of `DELETE /api/admin/complaints/:id` (admin.routes.js, lines 66-78). -/
def adminRemoveComplaint (s : Store) (id : ObjectId) : Store × Reply Unit :=
  match findById s id with
  | none => (s, .fail 404 "Complaint not found")
  | some _ => (deleteOne s id, .ok ())

/-! ## Routes: middleware chain, then handler (server.js, lines 58-61) -/

/-- Run a handler behind `protect`. -/
def withUser {α : Type} (s : Store) (tok : Token) (h : User → Store × Reply α) :
    Store × Reply α :=
  match protect s tok with
  | .error msg => (s, .fail 401 msg)
  | .ok u => h u

/-- Run a handler behind `protect, admin`. -/
def withAdmin {α : Type} (s : Store) (tok : Token) (h : Store × Reply α) :
    Store × Reply α :=
  match protect s tok with
  | .error msg => (s, .fail 401 msg)
  | .ok u => if admin u then h else (s, .fail 401 "Not authorized as an admin")

/-- Operation `setStatus`: `PUT /api/admin/complaints/:id`. -/
def setStatus (s : Store) (env : Env) (tok : Token) (id : ObjectId) (body : StatusBody) :
    Store × Reply Complaint :=
  withAdmin s tok (updateComplaintStatus s env id body)

/-- Operation `pay`: `POST /api/complaints/:id/payment`. -/
def pay (s : Store) (env : Env) (tok : Token) (id : ObjectId) (body : PayBody) :
    Store × Reply Complaint :=
  withUser s tok (fun u => processPayment s env u id body)

/-- Operation `createComplaint`: `POST /api/complaints`. -/
def createComplaint (s : Store) (env : Env) (tok : Token) (body : CreateBody) :
    Store × Reply Complaint :=
  withUser s tok (fun u => submitComplaint s env u body)

/-- Operation `editComplaint`: `PUT /api/complaints/:id`. -/
def editComplaint (s : Store) (env : Env) (tok : Token) (id : ObjectId) (body : EditBody) :
    Store × Reply Complaint :=
  withUser s tok (fun u => updateComplaint s env u id body)

/-- Operation `deleteComplaint` for a user: `DELETE /api/complaints/:id`. -/
def deleteComplaint (s : Store) (tok : Token) (id : ObjectId) : Store × Reply Unit :=
  withUser s tok (fun u => removeComplaint s u id)

/-- Operation `deleteComplaint` for an administrator:
`DELETE /api/admin/complaints/:id`. -/
def adminDeleteComplaint (s : Store) (tok : Token) (id : ObjectId) : Store × Reply Unit :=
  withAdmin s tok (adminRemoveComplaint s id)

/-! ## Sequences of operations -/

/-- A request to one of the complaint operations. -/
inductive Op where
  | create (tok : Token) (body : CreateBody)
  | edit (tok : Token) (id : ObjectId) (body : EditBody)
  | setStatus (tok : Token) (id : ObjectId) (body : StatusBody)
  | pay (tok : Token) (id : ObjectId) (body : PayBody)
  | delete (tok : Token) (id : ObjectId)
  | adminDelete (tok : Token) (id : ObjectId)
deriving DecidableEq, Repr

/-- The store after serving one request. -/
def step (s : Store) (env : Env) : Op → Store
  | .create tok body => (createComplaint s env tok body).1
  | .edit tok id body => (editComplaint s env tok id body).1
  | .setStatus tok id body => (setStatus s env tok id body).1
  | .pay tok id body => (pay s env tok id body).1
  | .delete tok id => (deleteComplaint s tok id).1
  | .adminDelete tok id => (adminDeleteComplaint s tok id).1

/-- The store after serving a sequence of requests, each with its environment. -/
def run (s : Store) : List (Env × Op) → Store
  | [] => s
  | (env, op) :: rest => run (step s env op) rest

/-- Stores reachable from an empty complaint collection by requests that
satisfy `allowed`. -/
inductive ReachableBy (allowed : Op → Prop) : Store → Prop where
  | init (users : List User) (n : ObjectId) : ReachableBy allowed ⟨users, [], n⟩
  | step {s : Store} (env : Env) (op : Op) :
      ReachableBy allowed s → allowed op → ReachableBy allowed (step s env op)

/-- Stores reachable by any requests. -/
def Reachable (s : Store) : Prop := ReachableBy (fun _ => True) s

/-- Whether a reply is a success. -/
def Reply.isOk {α : Type} : Reply α → Bool
  | .ok _ => true
  | .fail _ _ => false

/-- The HTTP status code of a reply. -/
def Reply.code {α : Type} : Reply α → Nat
  | .ok _ => 200
  | .fail c _ => c

/-- The transition table of section 4.1 of the specification, as the
statement about `setStatus` words it: the admin-triggered status changes. -/
def specTransition (s t : String) : Bool :=
  (s == "pending" && (t == "in-progress" || t == "resolved" || t == "rejected"))
    || (s == "in-progress" && (t == "resolved" || t == "rejected"))

/-- A `setStatus` body whose `paymentStatus`, when present and non-empty, is a
value of the schema enum. -/
def StatusBody.paymentStatusOk (body : StatusBody) : Prop :=
  ∀ p, body.paymentStatus = some p → p = "" ∨ p ∈ paymentStatusEnum

/-- Requests other than the admin status update. -/
def Op.notSetStatus : Op → Prop
  | .setStatus _ _ _ => False
  | _ => True

/-- Requests other than the admin status updates that can leave a closed
complaint unpaid: a status update must not name `closed` as its target, and
must either name a target status or carry no `paymentStatus`. -/
def Op.noAdminClose : Op → Prop
  | .setStatus _ _ body =>
      body.status ≠ some "closed" ∧ (strOr body.status "" ≠ "" ∨ strOr body.paymentStatus "" = "")
  | _ => True

/-! ## Sample data -/

def alice : User := ⟨1, "Alice", "alice@example.com", "hash", "user", some "A-101"⟩

def bob : User := ⟨2, "Bob", "bob@example.com", "hash", "user", some "B-202"⟩

def root : User := ⟨9, "Admin", "admin@gmail.com", "hash", "admin", none⟩

def env0 : Env := ⟨1000, 7⟩

/-- Three accounts and no complaint. -/
def store0 : Store := ⟨[alice, bob, root], [], 0⟩

def faucet : CreateBody :=
  { title := some "Leaky faucet", description := some "Kitchen tap drips",
    category := some "Plumbing", priority := some "medium" }

/-- Alice has filed complaint 0, which is pending. -/
def storePending : Store := step store0 env0 (.create (.valid 1) faucet)

/-- The administrator has resolved complaint 0 with a payment amount of 1500. -/
def storeResolved : Store :=
  step storePending env0
    (.setStatus (.valid 9) 0
      { status := some "resolved", paymentAmount := some 1500, paymentStatus := some "pending" })

/-- The administrator has resolved complaint 0 without a payment amount. -/
def storeResolvedNoAmount : Store :=
  step storePending env0 (.setStatus (.valid 9) 0 { status := some "resolved" })

def card4242 : PayBody :=
  { amount := some 1500, currency := some "INR", paymentMethod := some "card",
    cardholderName := some "Alice",
    cardDetails := some { cardNumber := some "4242424242424242", cardName := some "Alice",
                          expiryDate := some "12/30", cvv := some "123" } }

/-- Alice has paid for complaint 0, which is closed. -/
def storeClosed : Store := step storeResolved env0 (.pay (.valid 1) 0 card4242)

/-- Complaint 0 as stored in `storePending`. -/
def pendingDoc : Complaint :=
  { id := 0, user := 1, title := "Leaky faucet", description := "Kitchen tap drips",
    category := "Plumbing", status := "pending", paymentAmount := 0,
    paymentStatus := "pending", paymentDate := none, paymentDetails := none,
    priority := "medium", doorNumber := some "A-101", assignedTo := none,
    createdAt := 1000, updatedAt := 1000 }

/-- Complaint 0 as stored in `storeResolved`. -/
def resolvedDoc : Complaint :=
  { pendingDoc with status := "resolved", paymentAmount := 1500 }

/-- Complaint 0 as stored in `storeClosed`. -/
def closedDoc : Complaint :=
  { resolvedDoc with
    status := "closed", paymentStatus := "completed", paymentDate := some 1000
    paymentDetails := some
      { transactionId := "TXN10007", amount := 1500, currency := "INR",
        paymentMethod := "card", cardholderName := "Alice", cardLastFour := "4242",
        doorNumber := some "A-101", status := "completed" } }

/-- The administrator has closed the pending complaint 0 directly. -/
def storeAdminClosed : Store :=
  step storePending env0 (.setStatus (.valid 9) 0 { status := some "closed" })

/-- The administrator has put the paid, closed complaint 0 back to `resolved`. -/
def storeReopened : Store :=
  step storeClosed env0 (.setStatus (.valid 9) 0 { status := some "resolved" })

/-- The amount recorded in the stored payment sub-record of complaint `id`. -/
def recordedAmount (s : Store) (id : ObjectId) : Option Int :=
  ((findById s id).bind (fun c => c.paymentDetails)).map (fun pd => pd.amount)

/-- The last four characters of a string, in the words of the specification:
the first four of the string read backwards, put back in order. -/
def lastFourChars (n : String) : String :=
  ⟨(n.data.reverse.take 4).reverse⟩

/-! ## Further operations: token payload, listing, viewing, user management -/

/-- The payload the auth routes sign into a token: `{ user: { id, role } }`. -/
structure Payload where
  id : ObjectId
  role : String
deriving DecidableEq, Repr

/-- What `protect` keeps of a verified payload, `decoded.user.id`; the role
carried by the payload is not read. -/
def Payload.toToken (p : Payload) : Token :=
  .valid p.id

/-- Whether the chain `protect, admin` lets a request through to the handler. -/
def adminAllows (s : Store) (tok : Token) : Bool :=
  match protect s tok with
  | .ok u => admin u
  | .error _ => false

/-- The order of `.sort({ createdAt: -1 })`: newest first. -/
def newerFirst (a b : Complaint) : Prop :=
  b.createdAt ≤ a.createdAt

instance : DecidableRel newerFirst :=
  fun a b => inferInstanceAs (Decidable (b.createdAt ≤ a.createdAt))

/-- Handler of `GET /api/complaints` (complaint.routes.js, lines 37-48):
`Complaint.find({ user: req.user.id })` sorted by `createdAt` descending. -/
def fetchComplaints (s : Store) (reqUser : User) : Store × Reply (List Complaint) :=
  (s, .ok ((s.complaints.filter (fun c => c.user == reqUser.id)).insertionSort newerFirst))

/-- Handler of `GET /api/complaints/:id` (complaint.routes.js, lines 89-110).
The owner is loaded by `populate`; when the owner record is gone
`complaint.user` is null and reading its `_id` throws. -/
def fetchComplaint (s : Store) (reqUser : User) (id : ObjectId) : Store × Reply Complaint :=
  match findById s id with
  | none => (s, .fail 404 "Complaint not found")
  | some c =>
    match findUser s c.user with
    | none => (s, .fail 500 "Server error")
    | some owner =>
      if owner.id ≠ reqUser.id then (s, .fail 403 "Not authorized to view this complaint")
      else (s, .ok c)

/-- Operation `list`: `GET /api/complaints`. -/
def listComplaints (s : Store) (tok : Token) : Store × Reply (List Complaint) :=
  withUser s tok (fun u => fetchComplaints s u)

/-- Operation `view`: `GET /api/complaints/:id`. -/
def viewComplaint (s : Store) (tok : Token) (id : ObjectId) : Store × Reply Complaint :=
  withUser s tok (fun u => fetchComplaint s u id)

/-- `Complaint.deleteMany({ user: id })`: the documents kept and the number of
documents deleted (`deletedCount`). -/
def deleteMany : List Complaint → ObjectId → List Complaint × Nat
  | [], _ => ([], 0)
  | c :: rest, uid =>
    let r := deleteMany rest uid
    if c.user = uid then (r.1, r.2 + 1) else (c :: r.1, r.2)

/-- Handler of `DELETE /api/admin/users/:id` (admin.routes.js, lines 144-165):
the complaints of the user are deleted, then the user; the reply carries
`complaintsDeleted`. -/
def removeUser (s : Store) (uid : ObjectId) : Store × Reply Nat :=
  match findUser s uid with
  | none => (s, .fail 404 "User not found")
  | some _ =>
    let r := deleteMany s.complaints uid
    ({ users := s.users.filter (fun u => u.id != uid), complaints := r.1, nextId := s.nextId },
      .ok r.2)

/-- Operation `deleteUser`: `DELETE /api/admin/users/:id`. -/
def deleteUser (s : Store) (tok : Token) (uid : ObjectId) : Store × Reply Nat :=
  withAdmin s tok (removeUser s uid)

/-- `user.save()`: the record replaces the stored one. -/
def replaceUser (s : Store) (u : User) : Store :=
  { s with users := s.users.map (fun v => if v.id = u.id then u else v) }

/-- Body of `PUT /api/admin/users/:id/reset-password`. -/
structure ResetBody where
  newPassword : Option String := none
deriving DecidableEq, Repr

/-- Handler of `PUT /api/admin/users/:id/reset-password` (admin.routes.js,
lines 122-142). The hashing done by the `pre('save')` hook of the absent
`models/User.js` is the parameter `hash`. -/
def resetUserPassword (hash : String → String) (s : Store) (uid : ObjectId) (body : ResetBody) :
    Store × Reply Unit :=
  match body.newPassword with
  | none => (s, .fail 400 "Password must be at least 6 characters")
  | some pw =>
    if pw = "" ∨ pw.length < 6 then (s, .fail 400 "Password must be at least 6 characters")
    else
      match findUser s uid with
      | none => (s, .fail 404 "User not found")
      | some u => (replaceUser s { u with password := hash pw }, .ok ())

/-- Operation `resetPassword`: `PUT /api/admin/users/:id/reset-password`. -/
def resetPassword (hash : String → String) (s : Store) (tok : Token) (uid : ObjectId)
    (body : ResetBody) : Store × Reply Unit :=
  withAdmin s tok (resetUserPassword hash s uid body)

/-- Body of `PUT /api/admin/users/:id`. -/
structure RoleBody where
  role : Option String := none
deriving DecidableEq, Repr

/-- Modelled from the spec: `models/User.js` is absent, so what `user.save()`
accepts as a role is taken from section 3, role `user|admin`. -/
def roleEnum : List String := ["user", "admin"]

/-- Handler of `PUT /api/admin/users/:id` (admin.routes.js, lines 106-119):
`user.role = role; user.save()`. An absent `role` unsets the path, which reads
back as the default `user`. -/
def changeUserRole (s : Store) (uid : ObjectId) (body : RoleBody) : Store × Reply User :=
  match findUser s uid with
  | none => (s, .fail 404 "User not found")
  | some u =>
    let u' := { u with role := body.role.getD "user" }
    if u'.role ∈ roleEnum then (replaceUser s u', .ok u') else (s, .fail 500 "Server Error")

/-- Operation role update: `PUT /api/admin/users/:id`. -/
def updateUserRole (s : Store) (tok : Token) (uid : ObjectId) (body : RoleBody) :
    Store × Reply User :=
  withAdmin s tok (changeUserRole s uid body)

/-- A body sent to the edit route: the four keys the handler destructures and
further keys a client may add, which the handler does not read. -/
structure RawEditBody where
  title : Option String := none
  description : Option String := none
  category : Option String := none
  priority : Option String := none
  status : Option String := none
  paymentAmount : Option Int := none
  paymentStatus : Option String := none
  paymentDetails : Option PaymentDetails := none
  user : Option ObjectId := none
  doorNumber : Option String := none
deriving DecidableEq, Repr

/-- `const { title, description, category, priority } = req.body`. -/
def RawEditBody.destructure (b : RawEditBody) : EditBody :=
  { title := b.title, description := b.description, category := b.category,
    priority := b.priority }

/-- A body sent to the create route: the five keys the handler destructures
and further keys a client may add, which the handler does not read. -/
structure RawCreateBody where
  title : Option String := none
  description : Option String := none
  category : Option String := none
  priority : Option String := none
  doorNumber : Option String := none
  status : Option String := none
  user : Option ObjectId := none
  paymentAmount : Option Int := none
  paymentStatus : Option String := none
  paymentDetails : Option PaymentDetails := none
deriving DecidableEq, Repr

/-- `const { title, description, category, priority, doorNumber } = req.body`. -/
def RawCreateBody.destructure (b : RawCreateBody) : CreateBody :=
  { title := b.title, description := b.description, category := b.category,
    priority := b.priority, doorNumber := b.doorNumber }

/-- In the words of the specification of an optional content field: `new` is
the supplied value when one is supplied and non-empty, and `old` otherwise. -/
def SetIfSupplied (supplied : Option String) (old new : String) : Prop :=
  (∀ t, supplied = some t → t ≠ "" → new = t) ∧
    ((supplied = none ∨ supplied = some "") → new = old)

/-- An edit body whose `priority`, when present and non-empty, is a value of
the schema enum. -/
def EditBody.priorityOk (body : EditBody) : Prop :=
  ∀ p, body.priority = some p → p = "" ∨ p ∈ priorityEnum

/-- The complaints a user owns. -/
def ownedBy (s : Store) (uid : ObjectId) : List Complaint :=
  s.complaints.filter (fun c => c.user == uid)

/-! ## Storage failures in the cascading delete -/

/-- Which of the three storage calls of the user delete handler throws:
`User.findById`, `Complaint.deleteMany`, `user.deleteOne`. A call that throws
has no effect on the store. -/
structure Faults where
  findById : Bool := false
  deleteMany : Bool := false
  deleteOne : Bool := false
deriving DecidableEq, Repr

/-- Handler of `DELETE /api/admin/users/:id` (admin.routes.js, lines 144-165)
with storage calls that may throw; the `catch` answers 500 and undoes nothing. -/
def removeUserWith (f : Faults) (s : Store) (uid : ObjectId) : Store × Reply Nat :=
  if f.findById then (s, .fail 500 "Server Error")
  else
    match findUser s uid with
    | none => (s, .fail 404 "User not found")
    | some _ =>
      if f.deleteMany then (s, .fail 500 "Server Error")
      else
        let r := deleteMany s.complaints uid
        let s1 : Store := { s with complaints := r.1 }
        if f.deleteOne then (s1, .fail 500 "Server Error")
        else ({ s1 with users := s.users.filter (fun u => u.id != uid) }, .ok r.2)

/-- Operation `deleteUser` over a storage that may fail. -/
def deleteUserWith (f : Faults) (s : Store) (tok : Token) (uid : ObjectId) : Store × Reply Nat :=
  withAdmin s tok (removeUserWith f s uid)

/-- A complaint with its `updatedAt` stamp blanked, to compare documents apart
from that stamp. -/
def Complaint.withoutStamp (c : Complaint) : Complaint :=
  { c with updatedAt := 0 }

/-! ## Authentication routes -/

/-- What the absent `models/User.js` and the `bcryptjs` library contribute to
the auth routes: the schema validation run by `user.save()`, the hashing done
by the `pre('save')` hook, and `bcrypt.compare(password, hash)`. -/
structure UserModel where
  valid : User → Bool
  hash : String → String
  compare : String → String → Bool

/-- The user id a signed token carries: the id of an account, or the string
`'direct-' + Date.now()` that `direct-login` makes up for an unknown email. -/
inductive TokenId where
  | account (id : ObjectId)
  | temporary (stamp : Nat)
deriving DecidableEq, Repr

/-- What `protect` makes of a token id: a made-up id is no object id, the
lookup throws and the request is answered as a failed token. -/
def TokenId.toToken : TokenId → Token
  | .account id => .valid id
  | .temporary _ => .invalid

/-- The `userResponse` object of the auth replies, which the client keeps in
local storage. -/
structure UserSummary where
  id : TokenId
  name : String
  email : String
  role : String
deriving DecidableEq, Repr

/-- The reply `{ token, user }` of the auth routes; the token is given by the
payload it signs, `{ user: { id, role } }`. -/
structure AuthReply where
  tokenId : TokenId
  tokenRole : String
  user : UserSummary
deriving DecidableEq, Repr

/-- Body of `POST /api/auth/register`; `name`, `email` and `password` are
taken as present. -/
structure RegisterBody where
  name : String
  email : String
  password : String
  doorNumber : Option String := none
  role : Option String := none
deriving DecidableEq, Repr

/-- `User.findOne({ email })`. -/
def findByEmail (s : Store) (email : String) : Option User :=
  s.users.find? (fun u => u.email == email)

/-- `User.findOne({ doorNumber })`. -/
def findByDoor (s : Store) (door : String) : Option User :=
  s.users.find? (fun u => u.doorNumber == some door)

/-- The expression `email === 'admin@gmail.com' ? 'admin' : (role || 'user')`. -/
def userRole (body : RegisterBody) : String :=
  if body.email = "admin@gmail.com" then "admin" else strOr body.role "user"

/-- The reply of a successful register or login for a stored account. -/
def authReply (u : User) : AuthReply :=
  { tokenId := .account u.id, tokenRole := u.role,
    user := { id := .account u.id, name := u.name, email := u.email, role := u.role } }

/-- The account built by the register handler before it is saved
(auth.routes.js, lines 32-54), with the plain password. -/
def newUser (s : Store) (body : RegisterBody) : User :=
  { id := s.nextId
    name := body.name
    email := body.email
    password := body.password
    role := userRole body
    doorNumber := if userRole body = "user" then some (strOr body.doorNumber "") else none }

/-- Handler of `POST /api/auth/register` (auth.routes.js, lines 11-94). -/
def register (m : UserModel) (s : Store) (body : RegisterBody) : Store × Reply AuthReply :=
  match findByEmail s body.email with
  | some _ => (s, .fail 400 "User already exists with this email")
  | none =>
    if body.email ≠ "admin@gmail.com" ∧ strOr body.doorNumber "" ≠ "" ∧
        (findByDoor s (strOr body.doorNumber "")).isSome then
      (s, .fail 400 "This apartment door number is already registered")
    else if userRole body = "user" ∧ strOr body.doorNumber "" = "" then
      (s, .fail 400 "Door number is required for apartment residents")
    else if m.valid (newUser s body) then
      let u := { newUser s body with password := m.hash body.password }
      ({ s with users := s.users ++ [u], nextId := s.nextId + 1 }, .ok (authReply u))
    else (s, .fail 500 "Server error")

/-- Body of `POST /api/auth/login`; `email` is taken as present. -/
structure LoginBody where
  email : String
  password : Option String := none
deriving DecidableEq, Repr

/-- Handler of `POST /api/auth/login` (auth.routes.js, lines 96-188). An
absent password makes `bcrypt.compare` throw. The promotion of
`admin@gmail.com` saves the record with the stored password as it is. -/
def login (m : UserModel) (s : Store) (body : LoginBody) : Store × Reply AuthReply :=
  match findByEmail s body.email with
  | none => (s, .fail 400 "Invalid credentials")
  | some u =>
    if u.password = "" then (s, .fail 400 "Invalid credentials (password missing)")
    else
      match body.password with
      | none => (s, .fail 500 "Server error during authentication")
      | some pw =>
        if !m.compare pw u.password then
          (s, .fail 400 "Invalid credentials - password does not match")
        else if body.email = "admin@gmail.com" ∧ u.role ≠ "admin" then
          let u' := { u with role := "admin" }
          if m.valid u' then (replaceUser s u', .ok (authReply u'))
          else (s, .fail 500 "Server error")
        else (s, .ok (authReply u))

/-- Whether a list of characters starts with another. -/
def startsWithChars : List Char → List Char → Bool
  | _, [] => true
  | [], _ :: _ => false
  | c :: cs, d :: ds => c == d && startsWithChars cs ds

/-- Whether a list of characters contains another as a contiguous run. -/
def includesChars : List Char → List Char → Bool
  | [], sub => sub.isEmpty
  | c :: cs, sub => startsWithChars (c :: cs) sub || includesChars cs sub

/-- `String.prototype.includes`. -/
def includes (s sub : String) : Bool :=
  includesChars s.data sub.data

/-- Handler of `POST /api/auth/direct-login` (auth.routes.js, lines 209-274):
no password is read. `toLowerCase` is the ASCII lowering here. -/
def directLogin (env : Env) (s : Store) (email : String) : Store × Reply AuthReply :=
  match findByEmail s email with
  | some u => (s, .ok (authReply u))
  | none =>
    let isAdmin := includes email.toLower "admin"
    let role := if isAdmin then "admin" else "user"
    (s, .ok
      { tokenId := .temporary env.now, tokenRole := role,
        user := { id := .temporary env.now,
                  name := if isAdmin then "Admin User" else "Regular User",
                  email := email, role := role } })

/-! ## The client route guard -/

/-- What `ProtectedRoute` renders: the loading notice, a redirect to the login
page or to the user dashboard, or the protected page. -/
inductive Route where
  | loading
  | toLogin
  | toDashboard
  | children
deriving DecidableEq, Repr

/-- The component `ProtectedRoute` of `App.jsx` (lines 80-132): what it renders
and the `user` item of local storage afterwards. -/
def ProtectedRoute (loading : Bool) (storedUser : Option UserSummary)
    (requiredRole : Option String) : Route × Option UserSummary :=
  if loading then (.loading, storedUser)
  else
    match storedUser with
    | none => (.toLogin, none)
    | some userObj =>
      if requiredRole = some "admin" then
        if userObj.role = "admin" ∨ (userObj.email ≠ "" ∧ includes userObj.email "admin") then
          if userObj.role ≠ "admin" then (.children, some { userObj with role := "admin" })
          else (.children, some userObj)
        else (.toDashboard, some userObj)
      else if requiredRole = some "user" then
        if userObj.role ≠ "user" ∧ userObj.role ≠ "admin" then (.toLogin, some userObj)
        else (.children, some userObj)
      else (.children, some userObj)

/-- Emails are pairwise distinct. -/
def UniqueEmails (s : Store) : Prop :=
  (s.users.map (fun u => u.email)).Nodup

/-- Door numbers of the accounts whose role is not `admin` are pairwise
distinct. -/
def UniqueDoors (s : Store) : Prop :=
  ((s.users.filter (fun u => u.role != "admin")).filterMap (fun u => u.doorNumber)).Nodup

/-- The store after a sequence of register calls. -/
def registerAll (m : UserModel) (s : Store) : List RegisterBody → Store
  | [] => s
  | body :: rest => registerAll m (register m s body).1 rest

/-! ## Further sample data -/

/-- A resident whose email contains the word admin. -/
def mallory : User := ⟨3, "Mallory", "admin.mallory@example.com", "hash", "user", some "C-303"⟩

/-- Mallory and the administrator, with the pending complaint 0 of a further
owner. -/
def storeLookalike : Store := ⟨[mallory, root, alice], [pendingDoc], 1⟩

/-- Bob has filed complaint 1 after Alice's complaint 0 was resolved, and Alice
a further complaint 2. -/
def storeThree : Store :=
  step (step storeResolved ⟨2000, 7⟩ (.create (.valid 2) faucet)) ⟨3000, 7⟩
    (.create (.valid 1) { faucet with title := some "Broken lift" })

/-- A user model for the samples: a role must be `user` or `admin`, a hash is
the password behind a marker. -/
def sampleModel : UserModel :=
  { valid := fun u => decide (u.role ∈ roleEnum)
    hash := fun p => "hashed:" ++ p
    compare := fun p h => h == "hashed:" ++ p }

/-- Two residents, no administrator, no complaint. -/
def storeResidents : Store := ⟨[alice, bob], [], 20⟩

/-- Carol has registered with the password "secret1". -/
def storeRegistered : Store :=
  (register sampleModel storeResidents
    { name := "Carol", email := "carol@example.com", password := "secret1",
      doorNumber := some "C-303" }).1

/-- Carol's record in `storeRegistered`. -/
def carol : User := ⟨20, "Carol", "carol@example.com", "hashed:secret1", "user", some "C-303"⟩

/-- The local-storage user of Mallory, whose stored role is `user` and whose
email contains the word admin. -/
def malloryStored : UserSummary :=
  ⟨.account 3, "Mallory", "admin.mallory@example.com", "user"⟩

/-- The local-storage user of Bob, whose stored role is `user` too. -/
def bobStored : UserSummary :=
  ⟨.account 2, "Bob", "bob@example.com", "user"⟩

/-! ## Lookup lemmas -/

theorem findUser_id {s : Store} {uid : ObjectId} {u : User} (h : findUser s uid = some u) :
    u.id = uid := by
  have h1 := List.find?_some h
  simpa using h1

theorem findById_id {s : Store} {id : ObjectId} {c : Complaint} (h : findById s id = some c) :
    c.id = id := by
  have h1 := List.find?_some h
  simpa using h1

theorem findById_mem {s : Store} {id : ObjectId} {c : Complaint} (h : findById s id = some c) :
    c ∈ s.complaints :=
  List.mem_of_find?_eq_some h

theorem protect_ok {s : Store} {tok : Token} {u : User} (h : protect s tok = .ok u) :
    ∃ uid, tok = .valid uid ∧ findUser s uid = some u := by
  cases tok with
  | missing => simp [protect] at h
  | invalid => simp [protect] at h
  | valid uid =>
    refine ⟨uid, rfl, ?_⟩
    unfold protect at h
    cases hu : findUser s uid with
    | none => simp [hu] at h
    | some v =>
      simp only [hu] at h
      injection h with h
      rw [h]

theorem protect_findUser {s : Store} {tok : Token} {u : User} (h : protect s tok = .ok u) :
    findUser s u.id = some u := by
  obtain ⟨uid, _, hu⟩ := protect_ok h
  rw [findUser_id hu]
  exact hu

/-- Looking up `j` after the documents with identifier `i` were replaced by `doc`. -/
theorem find_replace (l : List Complaint) (i j : ObjectId) (doc : Complaint) (hdoc : doc.id = i) :
    (l.map (fun d => if d.id = i then doc else d)).find? (fun c => c.id == j)
      = if j = i then (l.find? (fun c => c.id == j)).map (fun _ => doc)
        else l.find? (fun c => c.id == j) := by
  induction l with
  | nil => simp
  | cons d l ih =>
    simp only [List.map_cons, List.find?_cons]
    by_cases hd : d.id = i
    · by_cases hj : j = i
      · subst hj
        simp [hd, hdoc]
      · have hne : (i == j) = false := by simpa using fun h : i = j => hj h.symm
        simp [hd, hdoc, hj, hne, ih]
    · by_cases hj : j = i
      · subst hj
        have hne : (d.id == j) = false := by simpa using hd
        simp [hd, hne, ih]
      · simp [hd, hj, ih]

/-- Looking up `j` after the documents with identifier `i` were deleted. -/
theorem findById_deleteOne (s : Store) (i j : ObjectId) :
    findById (deleteOne s i) j = if j = i then none else findById s j := by
  unfold findById deleteOne
  simp only
  induction s.complaints with
  | nil => simp
  | cons d l ih =>
    by_cases hd : d.id = i
    · by_cases hj : j = i
      · subst hj
        simp [List.filter_cons, hd]
      · have hne : ¬ i = j := fun h => hj h.symm
        simpa [List.filter_cons, hd, List.find?_cons, hj, hne] using ih
    · by_cases hj : j = i
      · subst hj
        simp [List.filter_cons, hd, List.find?_cons]
      · by_cases hdj : d.id = j
        · simp [List.filter_cons, hd, List.find?_cons, hj, hdj]
        · simpa [List.filter_cons, hd, List.find?_cons, hj, hdj] using ih

/-- Looking up `j` after a document was appended. -/
theorem find_append (l : List Complaint) (doc : Complaint) (j : ObjectId) :
    (l ++ [doc]).find? (fun c => c.id == j)
      = match l.find? (fun c => c.id == j) with
        | some c => some c
        | none => if doc.id = j then some doc else none := by
  induction l with
  | nil => by_cases h : doc.id = j <;> simp [List.find?_cons, h]
  | cons d l ih =>
    by_cases hd : d.id = j
    · simp [List.find?_cons, hd]
    · simpa [List.find?_cons, hd] using ih

/-! ## What `save` and `insert` do -/

theorem save_valid (s : Store) (env : Env) (c : Complaint) (hv : validate c = true) :
    save s env c = some (replaceDoc s (preSave env c), preSave env c) := by
  simp [save, hv]

theorem save_invalid (s : Store) (env : Env) (c : Complaint) (hv : validate c = false) :
    save s env c = none := by
  simp [save, hv]

theorem save_some {s s' : Store} {env : Env} {c doc : Complaint}
    (h : save s env c = some (s', doc)) :
    validate c = true ∧ doc = preSave env c ∧ s' = replaceDoc s doc := by
  cases hv : validate c with
  | false => simp [save, hv] at h
  | true =>
    rw [save_valid s env c hv] at h
    injection h with h
    injection h with h1 h2
    subst h2
    exact ⟨rfl, rfl, h1.symm⟩

/-- After a successful `save` of `c`, identifier `j` resolves to the saved
document when `j` is `c.id` and a document was stored under it, and to what it
resolved to before otherwise. -/
theorem findById_save {s s' : Store} {env : Env} {c doc : Complaint}
    (h : save s env c = some (s', doc)) (j : ObjectId) :
    findById s' j = if j = c.id then (findById s j).map (fun _ => doc) else findById s j := by
  obtain ⟨_, hdoc, hs⟩ := save_some h
  subst hs
  have hid : doc.id = c.id := by rw [hdoc]; rfl
  have h1 := find_replace s.complaints doc.id j doc rfl
  rw [hid] at h1
  rw [← hid]
  simpa [findById, replaceDoc, hid] using h1

theorem mem_save {s s' : Store} {env : Env} {c doc : Complaint}
    (h : save s env c = some (s', doc)) {d : Complaint} (hd : d ∈ s'.complaints) :
    d = doc ∨ d ∈ s.complaints := by
  obtain ⟨_, _, hs⟩ := save_some h
  subst hs
  simp only [replaceDoc, List.mem_map] at hd
  obtain ⟨e, he, rfl⟩ := hd
  by_cases hc : e.id = doc.id
  · left; simp [hc]
  · right; simpa [hc] using he

theorem insert_some {s s' : Store} {env : Env} {c doc : Complaint}
    (h : insert s env c = some (s', doc)) :
    validate c = true ∧ doc = preSave env c ∧
      s' = ⟨s.users, s.complaints ++ [doc], s.nextId + 1⟩ := by
  cases hv : validate c with
  | false => simp [insert, hv] at h
  | true =>
    simp only [insert, hv, if_true] at h
    injection h with h
    injection h with h1 h2
    subst h2
    exact ⟨rfl, rfl, h1.symm⟩

/-! ## Middleware -/

theorem withUser_ok {α : Type} {s : Store} {tok : Token} {u : User}
    (h : User → Store × Reply α) (hp : protect s tok = .ok u) : withUser s tok h = h u := by
  simp [withUser, hp]

theorem withAdmin_ok {α : Type} {s : Store} {tok : Token} {u : User}
    (h : Store × Reply α) (hp : protect s tok = .ok u) (ha : admin u = true) :
    withAdmin s tok h = h := by
  simp [withAdmin, hp, ha]

theorem withUser_cases {α : Type} (s : Store) (tok : Token) (h : User → Store × Reply α) :
    (∃ msg, withUser s tok h = (s, .fail 401 msg)) ∨
      (∃ u, protect s tok = .ok u ∧ withUser s tok h = h u) := by
  cases hp : protect s tok with
  | error msg => left; exact ⟨msg, by simp [withUser, hp]⟩
  | ok u => right; exact ⟨u, rfl, by simp [withUser, hp]⟩

theorem withAdmin_cases {α : Type} (s : Store) (tok : Token) (h : Store × Reply α) :
    (∃ msg, withAdmin s tok h = (s, .fail 401 msg)) ∨
      (∃ u, protect s tok = .ok u ∧ admin u = true ∧ withAdmin s tok h = h) := by
  cases hp : protect s tok with
  | error msg => left; exact ⟨msg, by simp [withAdmin, hp]⟩
  | ok u =>
    cases ha : admin u with
    | false => left; exact ⟨"Not authorized as an admin", by simp [withAdmin, hp, ha]⟩
    | true => right; exact ⟨u, rfl, ha, by simp [withAdmin, hp, ha]⟩

/-! ## The admin status update -/

theorem applyStatusBody_status (c : Complaint) (body : StatusBody) :
    (applyStatusBody c body).status = strOr body.status c.status := by
  unfold applyStatusBody
  cases body.paymentAmount <;> cases body.paymentStatus <;> simp <;> split <;> rfl

theorem applyStatusBody_paymentAmount (c : Complaint) (body : StatusBody) :
    (applyStatusBody c body).paymentAmount = body.paymentAmount.getD c.paymentAmount := by
  unfold applyStatusBody
  cases body.paymentAmount <;> cases body.paymentStatus <;> simp <;> split <;> rfl

theorem applyStatusBody_paymentStatus (c : Complaint) (body : StatusBody) :
    (applyStatusBody c body).paymentStatus = strOr body.paymentStatus c.paymentStatus := by
  unfold applyStatusBody strOr
  cases body.paymentAmount <;> cases body.paymentStatus <;> simp <;> split <;> simp_all

theorem applyStatusBody_frame (c : Complaint) (body : StatusBody) :
    (applyStatusBody c body).id = c.id ∧ (applyStatusBody c body).user = c.user ∧
      (applyStatusBody c body).title = c.title ∧
      (applyStatusBody c body).description = c.description ∧
      (applyStatusBody c body).category = c.category ∧
      (applyStatusBody c body).priority = c.priority := by
  unfold applyStatusBody
  cases body.paymentAmount <;> cases body.paymentStatus <;> simp <;> split <;> simp

theorem validate_iff (c : Complaint) :
    validate c = true ↔ c.title ≠ "" ∧ c.description ≠ "" ∧ c.category ≠ "" ∧
      c.status ∈ statusEnum ∧ c.paymentStatus ∈ paymentStatusEnum ∧ c.priority ∈ priorityEnum := by
  simp [validate, and_assoc]

theorem strOr_mem {a : Option String} {b : String} {l : List String}
    (ha : ∀ p, a = some p → p = "" ∨ p ∈ l) (hb : b ∈ l) : strOr a b ∈ l := by
  unfold strOr
  cases a with
  | none => exact hb
  | some p =>
    by_cases hp : p = ""
    · simp [hp, hb]
    · simp only [hp, if_false]
      exact (ha p rfl).resolve_left hp

theorem strOr_some {t b : String} (ht : t ≠ "") : strOr (some t) b = t := by
  simp [strOr, ht]

theorem validate_applyStatusBody {c : Complaint} {body : StatusBody}
    (hv : validate c = true) (hs : strOr body.status c.status ∈ statusEnum)
    (hp : body.paymentStatusOk) : validate (applyStatusBody c body) = true := by
  rw [validate_iff] at hv ⊢
  obtain ⟨h1, h2, h3, _, h5, h6⟩ := hv
  obtain ⟨_, _, f3, f4, f5, f6⟩ := applyStatusBody_frame c body
  rw [f3, f4, f5, f6, applyStatusBody_status, applyStatusBody_paymentStatus]
  exact ⟨h1, h2, h3, hs, strOr_mem hp h5, h6⟩

/-- An authenticated administrator's status update of an existing complaint
whose updated document passes validation is accepted, and the complaint is
then stored as the updated document. -/
theorem setStatus_accepts {s : Store} (env : Env) {tok : Token} {id : ObjectId}
    {body : StatusBody} {u : User} {c : Complaint}
    (hp : protect s tok = .ok u) (ha : admin u = true) (hc : findById s id = some c)
    (hv : validate (applyStatusBody c body) = true) :
    setStatus s env tok id body
        = (replaceDoc s (preSave env (applyStatusBody c body)),
            .ok (preSave env (applyStatusBody c body))) ∧
      findById (replaceDoc s (preSave env (applyStatusBody c body))) id
        = some (preSave env (applyStatusBody c body)) := by
  have hsave := save_valid s env (applyStatusBody c body) hv
  refine ⟨?_, ?_⟩
  · rw [setStatus, withAdmin_ok _ hp ha, updateComplaintStatus]
    simp only [hc, hsave]
  · rw [findById_save hsave id]
    have hid : (applyStatusBody c body).id = id := by
      rw [(applyStatusBody_frame c body).1, findById_id hc]
    simp [hid, hc]

/-- C1, evaluated at the failing input: on the pending complaint 0 an
administrator's request with target status `resolved` and no `paymentAmount`,
and one with a negative `paymentAmount`, are both accepted by the handler and
the stored status becomes `resolved`, where the specification requires a
rejection that leaves the complaint unchanged. -/
theorem setStatus_resolved_without_amount_accepted :
    (findById storePending 0).map (fun c => c.status) = some "pending" ∧
    (setStatus storePending env0 (.valid 9) 0 { status := some "resolved" }).2.isOk = true ∧
    (findById (setStatus storePending env0 (.valid 9) 0 { status := some "resolved" }).1 0).map
        (fun c => c.status) = some "resolved" ∧
    (setStatus storePending env0 (.valid 9) 0
        { status := some "resolved", paymentAmount := some (-5) }).2.isOk = true ∧
    (findById (setStatus storePending env0 (.valid 9) 0
        { status := some "resolved", paymentAmount := some (-5) }).1 0).map
        (fun c => (c.status, c.paymentAmount)) = some ("resolved", -5) := by
  decide

/-- The admin status update never looks at the payment amount: for every
schema-valid stored complaint and every administrator's request whose target
status is `resolved` and whose `paymentStatus` is absent, empty or one of
`pending`, `completed`, `failed`, whatever its `paymentAmount` (absent, zero,
negative or positive), the request is accepted, the stored status becomes
`resolved`, and the stored payment amount is the supplied one, or the previous
one when none is supplied. -/
theorem setStatus_resolved_any_amount (s : Store) (env : Env) (tok : Token) (id : ObjectId)
    (body : StatusBody) (u : User) (c : Complaint)
    (hp : protect s tok = .ok u) (ha : admin u = true) (hc : findById s id = some c)
    (hv : validate c = true) (ht : body.status = some "resolved")
    (hps : body.paymentStatusOk) :
    ∃ s' doc, setStatus s env tok id body = (s', .ok doc) ∧ findById s' id = some doc ∧
      doc.status = "resolved" ∧ doc.paymentAmount = body.paymentAmount.getD c.paymentAmount := by
  have hst : strOr body.status c.status = "resolved" := by
    rw [ht]; exact strOr_some (by decide)
  have hv' : validate (applyStatusBody c body) = true :=
    validate_applyStatusBody hv (by rw [hst]; decide) hps
  obtain ⟨h1, h2⟩ := setStatus_accepts env hp ha hc hv'
  refine ⟨_, _, h1, h2, ?_, ?_⟩
  · show (applyStatusBody c body).status = "resolved"
    rw [applyStatusBody_status, hst]
  · show (applyStatusBody c body).paymentAmount = _
    rw [applyStatusBody_paymentAmount]

theorem setStatus_resolved_any_amount_witness :
    protect storePending (.valid 9) = .ok root ∧ admin root = true ∧
    findById storePending 0 = some pendingDoc ∧ validate pendingDoc = true ∧
    ∃ s' doc, setStatus storePending env0 (.valid 9) 0 { status := some "resolved" }
        = (s', .ok doc) ∧ findById s' 0 = some doc ∧
      doc.status = "resolved" ∧ doc.paymentAmount = (none : Option Int).getD pendingDoc.paymentAmount :=
  ⟨rfl, by decide, by decide, by decide,
    setStatus_resolved_any_amount storePending env0 (.valid 9) 0 { status := some "resolved" }
      root pendingDoc rfl (by decide) (by decide) (by decide) rfl
      (fun p h => by cases h)⟩

/-- C2 (as stated) fails: the closed complaint 0 is put back to `pending` by an
administrator's setStatus request, although closed to pending is not in the
transition table. -/
theorem setStatus_reopens_closed :
    (findById storeClosed 0).map (fun c => c.status) = some "closed" ∧
    specTransition "closed" "pending" = false ∧
    (setStatus storeClosed env0 (.valid 9) 0 { status := some "pending" }).2.isOk = true ∧
    (findById (setStatus storeClosed env0 (.valid 9) 0 { status := some "pending" }).1 0).map
        (fun c => c.status) = some "pending" := by
  decide

/-- C2 (amended): for every schema-valid stored complaint, whatever its
current status, and every administrator's setStatus request (its
`paymentAmount`, when supplied, a number and its `assignedTo`, when supplied,
an identifier) whose target status `t` is one of the five status values: when
the request's `paymentStatus` is absent, empty or one of `pending`,
`completed`, `failed`, the request is accepted and the stored status becomes `t`; when it is any
other string, saving fails schema validation, the reply is 500 and the store
is unchanged.  No transition table is consulted, so a closed or rejected
complaint can change status again. -/
theorem setStatus_any_target (s : Store) (env : Env) (tok : Token) (id : ObjectId)
    (body : StatusBody) (u : User) (c : Complaint) (t : String)
    (hp : protect s tok = .ok u) (ha : admin u = true) (hc : findById s id = some c)
    (hv : validate c = true) (ht : body.status = some t) (hte : t ∈ statusEnum) :
    ((∀ p, body.paymentStatus = some p → p = "" ∨ p ∈ paymentStatusEnum) →
      ∃ s' doc, setStatus s env tok id body = (s', .ok doc) ∧ findById s' id = some doc ∧
        doc.status = t) ∧
    (∀ p, body.paymentStatus = some p → p ≠ "" → p ∉ paymentStatusEnum →
      setStatus s env tok id body = (s, .fail 500 "Server Error")) := by
  have hne : t ≠ "" := by
    intro h; subst h; revert hte; decide
  have hst : strOr body.status c.status = t := by
    rw [ht]; exact strOr_some hne
  constructor
  · intro hps
    have hv' : validate (applyStatusBody c body) = true :=
      validate_applyStatusBody hv (by rw [hst]; exact hte) hps
    obtain ⟨h1, h2⟩ := setStatus_accepts env hp ha hc hv'
    refine ⟨_, _, h1, h2, ?_⟩
    show (applyStatusBody c body).status = t
    rw [applyStatusBody_status, hst]
  · intro p hpp hpne hpn
    have hinv : validate (applyStatusBody c body) = false := by
      cases hv2 : validate (applyStatusBody c body) with
      | false => rfl
      | true =>
        rw [validate_iff, applyStatusBody_paymentStatus, hpp, strOr_some hpne] at hv2
        exact absurd hv2.2.2.2.2.1 hpn
    rw [setStatus, withAdmin_ok _ hp ha, updateComplaintStatus]
    simp [hc, save_invalid s env _ hinv]

theorem setStatus_any_target_witness :
    protect storeClosed (.valid 9) = .ok root ∧ admin root = true ∧
    findById storeClosed 0 = some closedDoc ∧ validate closedDoc = true ∧
    "in-progress" ∈ statusEnum ∧ "resolved" ∈ statusEnum ∧
    (∃ s' doc, setStatus storeClosed env0 (.valid 9) 0 { status := some "in-progress" }
        = (s', .ok doc) ∧ findById s' 0 = some doc ∧ doc.status = "in-progress") ∧
    setStatus storeClosed env0 (.valid 9) 0
        { status := some "resolved", paymentStatus := some "bogus" }
      = (storeClosed, .fail 500 "Server Error") :=
  ⟨rfl, by decide, by decide, by decide, by decide, by decide,
    (setStatus_any_target storeClosed env0 (.valid 9) 0 { status := some "in-progress" }
      root closedDoc "in-progress" rfl (by decide) (by decide) (by decide) rfl
      (by decide)).1 (fun p h => by cases h),
    (setStatus_any_target storeClosed env0 (.valid 9) 0
      { status := some "resolved", paymentStatus := some "bogus" }
      root closedDoc "resolved" rfl (by decide) (by decide) (by decide) rfl
      (by decide)).2 "bogus" rfl (by decide) (by decide)⟩

/-! ## Outcomes of each operation

Every operation either fails and leaves the store as it was, or succeeds with
the store described here. -/

theorem findById_replaceDoc (s : Store) (doc : Complaint) (j : ObjectId) :
    findById (replaceDoc s doc) j
      = if j = doc.id then (findById s j).map (fun _ => doc) else findById s j := by
  simpa [findById, replaceDoc] using find_replace s.complaints doc.id j doc rfl

theorem mem_replaceDoc {s : Store} {doc d : Complaint} (hd : d ∈ (replaceDoc s doc).complaints) :
    d = doc ∨ d ∈ s.complaints := by
  simp only [replaceDoc, List.mem_map] at hd
  obtain ⟨e, he, rfl⟩ := hd
  by_cases hc : e.id = doc.id
  · left; simp [hc]
  · right; simpa [hc] using he

theorem setStatus_cases (s : Store) (env : Env) (tok : Token) (id : ObjectId)
    (body : StatusBody) :
    ((setStatus s env tok id body).1 = s ∧ (setStatus s env tok id body).2.isOk = false) ∨
    ∃ u c, protect s tok = .ok u ∧ admin u = true ∧ findById s id = some c ∧
      validate (applyStatusBody c body) = true ∧
      setStatus s env tok id body
        = (replaceDoc s (preSave env (applyStatusBody c body)),
            .ok (preSave env (applyStatusBody c body))) := by
  rcases withAdmin_cases s tok (updateComplaintStatus s env id body) with ⟨msg, h⟩ | ⟨u, hp, ha, h⟩
  · left; rw [setStatus, h]; exact ⟨rfl, rfl⟩
  · cases hc : findById s id with
    | none =>
      left
      rw [setStatus, h, updateComplaintStatus]
      simp [hc, Reply.isOk]
    | some c =>
      cases hv : validate (applyStatusBody c body) with
      | false =>
        left
        rw [setStatus, h, updateComplaintStatus]
        simp [hc, save_invalid s env _ hv, Reply.isOk]
      | true =>
        right
        exact ⟨u, c, hp, ha, rfl, hv, (setStatus_accepts env hp ha hc hv).1⟩

theorem pay_cases (s : Store) (env : Env) (tok : Token) (id : ObjectId) (body : PayBody) :
    ((pay s env tok id body).1 = s ∧ (pay s env tok id body).2.isOk = false) ∨
    ∃ u c owner, protect s tok = .ok u ∧ findById s id = some c ∧
      findUser s c.user = some owner ∧ c.user = u.id ∧ c.status = "resolved" ∧
      validate (applyPayment env c owner body) = true ∧
      pay s env tok id body
        = (replaceDoc s (preSave env (applyPayment env c owner body)),
            .ok (preSave env (applyPayment env c owner body))) := by
  rcases withUser_cases s tok (fun u => processPayment s env u id body) with ⟨msg, h⟩ | ⟨u, hp, h⟩
  · left; rw [pay, h]; exact ⟨rfl, rfl⟩
  · rw [pay, h]
    cases hc : findById s id with
    | none => left; simp [processPayment, hc, Reply.isOk]
    | some c =>
      cases ho : findUser s c.user with
      | none => left; simp [processPayment, hc, ho, Reply.isOk]
      | some owner =>
        by_cases hown : owner.id = u.id
        · by_cases hst : c.status = "resolved"
          · cases hv : validate (applyPayment env c owner body) with
            | false =>
              left
              simp [processPayment, hc, ho, hown, hst, save_invalid s env _ hv, Reply.isOk]
            | true =>
              right
              refine ⟨u, c, owner, hp, rfl, ho, ?_, hst, hv, ?_⟩
              · rw [← findUser_id ho]; exact hown
              · simp [processPayment, hc, ho, hown, hst, save_valid s env _ hv]
          · left
            simp [processPayment, hc, ho, hown, hst, Reply.isOk]
        · left
          simp [processPayment, hc, ho, hown, Reply.isOk]

theorem editComplaint_cases (s : Store) (env : Env) (tok : Token) (id : ObjectId)
    (body : EditBody) :
    ((editComplaint s env tok id body).1 = s ∧ (editComplaint s env tok id body).2.isOk = false) ∨
    ∃ u c, protect s tok = .ok u ∧ findById s id = some c ∧ c.user = u.id ∧
      c.status = "pending" ∧ validate (applyEdit c body) = true ∧
      editComplaint s env tok id body
        = (replaceDoc s (preSave env (applyEdit c body)), .ok (preSave env (applyEdit c body))) := by
  rcases withUser_cases s tok (fun u => updateComplaint s env u id body) with ⟨msg, h⟩ | ⟨u, hp, h⟩
  · left; rw [editComplaint, h]; exact ⟨rfl, rfl⟩
  · rw [editComplaint, h]
    cases hc : findById s id with
    | none => left; simp [updateComplaint, hc, Reply.isOk]
    | some c =>
      by_cases hown : c.user = u.id
      · by_cases hst : c.status = "pending"
        · cases hv : validate (applyEdit c body) with
          | false =>
            left
            simp [updateComplaint, hc, hown, hst, save_invalid s env _ hv, Reply.isOk]
          | true =>
            right
            refine ⟨u, c, hp, rfl, hown, hst, hv, ?_⟩
            simp [updateComplaint, hc, hown, hst, save_valid s env _ hv]
        · left
          simp [updateComplaint, hc, hown, hst, Reply.isOk]
      · left
        simp [updateComplaint, hc, hown, Reply.isOk]

theorem createComplaint_cases (s : Store) (env : Env) (tok : Token) (body : CreateBody) :
    ((createComplaint s env tok body).1 = s ∧ (createComplaint s env tok body).2.isOk = false) ∨
    ∃ u, protect s tok = .ok u ∧ validate (newComplaint s env u body) = true ∧
      createComplaint s env tok body
        = (⟨s.users, s.complaints ++ [preSave env (newComplaint s env u body)], s.nextId + 1⟩,
            .ok (preSave env (newComplaint s env u body))) := by
  rcases withUser_cases s tok (fun u => submitComplaint s env u body) with ⟨msg, h⟩ | ⟨u, hp, h⟩
  · left; rw [createComplaint, h]; exact ⟨rfl, rfl⟩
  · rw [createComplaint, h]
    cases hv : validate (newComplaint s env u body) with
    | false => left; simp [submitComplaint, insert, hv, Reply.isOk]
    | true => right; exact ⟨u, hp, hv, by simp [submitComplaint, insert, hv]⟩

theorem deleteComplaint_cases (s : Store) (tok : Token) (id : ObjectId) :
    ((deleteComplaint s tok id).1 = s ∧ (deleteComplaint s tok id).2.isOk = false) ∨
    ∃ u c, protect s tok = .ok u ∧ findById s id = some c ∧ c.user = u.id ∧
      deleteComplaint s tok id = (deleteOne s id, .ok ()) := by
  rcases withUser_cases s tok (fun u => removeComplaint s u id) with ⟨msg, h⟩ | ⟨u, hp, h⟩
  · left; rw [deleteComplaint, h]; exact ⟨rfl, rfl⟩
  · rw [deleteComplaint, h]
    cases hc : findById s id with
    | none => left; simp [removeComplaint, hc, Reply.isOk]
    | some c =>
      by_cases hown : c.user = u.id
      · right; exact ⟨u, c, hp, rfl, hown, by simp [removeComplaint, hc, hown]⟩
      · left; simp [removeComplaint, hc, hown, Reply.isOk]

theorem adminDeleteComplaint_cases (s : Store) (tok : Token) (id : ObjectId) :
    ((adminDeleteComplaint s tok id).1 = s ∧ (adminDeleteComplaint s tok id).2.isOk = false) ∨
    ∃ u c, protect s tok = .ok u ∧ admin u = true ∧ findById s id = some c ∧
      adminDeleteComplaint s tok id = (deleteOne s id, .ok ()) := by
  rcases withAdmin_cases s tok (adminRemoveComplaint s id) with ⟨msg, h⟩ | ⟨u, hp, ha, h⟩
  · left; rw [adminDeleteComplaint, h]; exact ⟨rfl, rfl⟩
  · rw [adminDeleteComplaint, h]
    cases hc : findById s id with
    | none => left; simp [adminRemoveComplaint, hc, Reply.isOk]
    | some c => right; exact ⟨u, c, hp, ha, rfl, by simp [adminRemoveComplaint, hc]⟩

/-! ## How a complaint becomes closed -/

theorem strOr_eq_of_ne {a : Option String} {b t : String} (h : strOr a b = t) (hb : b ≠ t) :
    a = some t := by
  unfold strOr at h
  cases a with
  | none => exact absurd h hb
  | some x =>
    by_cases hx : x = ""
    · simp only [hx, if_true] at h; exact absurd h hb
    · simp only [hx, if_false] at h; rw [h]

theorem preSave_status (env : Env) (c : Complaint) : (preSave env c).status = c.status := rfl

theorem preSave_id (env : Env) (c : Complaint) : (preSave env c).id = c.id := rfl

/-- C3 (as stated) fails: an administrator's setStatus request with target
status `closed` closes the pending complaint 0, with no pay call. -/
theorem setStatus_closes_pending :
    (findById storePending 0).map (fun c => c.status) = some "pending" ∧
    (setStatus storePending env0 (.valid 9) 0 { status := some "closed" }).2.isOk = true ∧
    (findById (step storePending env0 (.setStatus (.valid 9) 0 { status := some "closed" })) 0).map
        (fun c => c.status) = some "closed" := by
  decide

/-- C3 (amended): whenever one request (create, edit, setStatus, pay, or a
delete) leaves complaint `id` with status `closed` although it was not stored
as closed before, the request is either a pay call on `id` by the complaint's
owner, made while the status was `resolved`, that succeeded, or a setStatus
call on `id` by an administrator whose target status is `closed`. -/
theorem closed_only_by_pay_or_admin (s : Store) (env : Env) (op : Op) (id : ObjectId)
    (c' : Complaint) (hafter : findById (step s env op) id = some c')
    (hclosed : c'.status = "closed")
    (hbefore : ∀ c, findById s id = some c → c.status ≠ "closed") :
    (∃ tok body u c, op = .pay tok id body ∧ protect s tok = .ok u ∧ findById s id = some c ∧
        c.user = u.id ∧ c.status = "resolved" ∧ (pay s env tok id body).2.isOk = true) ∨
    (∃ tok body u, op = .setStatus tok id body ∧ protect s tok = .ok u ∧ admin u = true ∧
        body.status = some "closed") := by
  have same : step s env op = s → False := fun h => by
    rw [h] at hafter
    exact hbefore c' hafter hclosed
  cases op with
  | create tok body =>
    exfalso
    rcases createComplaint_cases s env tok body with ⟨h, _⟩ | ⟨u, _, _, h⟩
    · exact same h
    · have h1 : findById (step s env (.create tok body)) id
          = match findById s id with
            | some c => some c
            | none => if (preSave env (newComplaint s env u body)).id = id
                then some (preSave env (newComplaint s env u body)) else none := by
        simp only [step, h, findById]
        exact find_append _ _ _
      rw [hafter] at h1
      cases hc : findById s id with
      | some c =>
        rw [hc] at h1
        injection h1 with h1
        exact hbefore c hc (h1 ▸ hclosed)
      | none =>
        rw [hc] at h1
        by_cases hid : (preSave env (newComplaint s env u body)).id = id
        · simp only [hid, if_true] at h1
          injection h1 with h1
          rw [h1] at hclosed
          have hpc : ("pending" : String) = "closed" := hclosed
          exact absurd hpc (by decide)
        · simp [hid] at h1
  | edit tok i body =>
    exfalso
    rcases editComplaint_cases s env tok i body with ⟨h, _⟩ | ⟨u, c, _, hc, _, hst, _, h⟩
    · exact same h
    · have hdid : (preSave env (applyEdit c body)).id = i :=
        (findById_id hc : c.id = i)
      simp only [step, h, findById_replaceDoc, hdid] at hafter
      by_cases hi : id = i
      · subst hi
        simp only [if_true, hc, Option.map_some'] at hafter
        injection hafter with hafter
        rw [← hafter] at hclosed
        have hcs : c.status = "closed" := hclosed
        rw [hst] at hcs
        exact absurd hcs (by decide)
      · simp only [hi, if_false] at hafter
        exact hbefore c' hafter hclosed
  | setStatus tok i body =>
    rcases setStatus_cases s env tok i body with ⟨h, _⟩ | ⟨u, c, hp, ha, hc, _, h⟩
    · exact (same h).elim
    · have hdid : (preSave env (applyStatusBody c body)).id = i := by
        rw [preSave_id, (applyStatusBody_frame c body).1]; exact findById_id hc
      simp only [step, h, findById_replaceDoc, hdid] at hafter
      by_cases hi : id = i
      · subst hi
        simp only [if_true, hc, Option.map_some'] at hafter
        injection hafter with hafter
        rw [← hafter, preSave_status, applyStatusBody_status] at hclosed
        right
        exact ⟨tok, body, u, rfl, hp, ha, strOr_eq_of_ne hclosed (hbefore c hc)⟩
      · simp only [hi, if_false] at hafter
        exact (hbefore c' hafter hclosed).elim
  | pay tok i body =>
    rcases pay_cases s env tok i body with ⟨h, _⟩ | ⟨u, c, owner, hp, hc, _, hown, hst, _, h⟩
    · exact (same h).elim
    · have hdid : (preSave env (applyPayment env c owner body)).id = i :=
        (findById_id hc : c.id = i)
      simp only [step, h, findById_replaceDoc, hdid] at hafter
      by_cases hi : id = i
      · subst hi
        left
        exact ⟨tok, body, u, c, rfl, hp, hc, hown, hst, by rw [h]; rfl⟩
      · simp only [hi, if_false] at hafter
        exact (hbefore c' hafter hclosed).elim
  | delete tok i =>
    exfalso
    rcases deleteComplaint_cases s tok i with ⟨h, _⟩ | ⟨u, c, _, _, _, h⟩
    · exact same h
    · simp only [step, h, findById_deleteOne] at hafter
      by_cases hid : id = i
      · simp [hid] at hafter
      · simp only [hid, if_false] at hafter
        exact hbefore c' hafter hclosed
  | adminDelete tok i =>
    exfalso
    rcases adminDeleteComplaint_cases s tok i with ⟨h, _⟩ | ⟨u, c, _, _, _, h⟩
    · exact same h
    · simp only [step, h, findById_deleteOne] at hafter
      by_cases hid : id = i
      · simp [hid] at hafter
      · simp only [hid, if_false] at hafter
        exact hbefore c' hafter hclosed

theorem closed_only_by_pay_or_admin_witness :
    findById (step storeResolved env0 (.pay (.valid 1) 0 card4242)) 0 = some closedDoc ∧
    closedDoc.status = "closed" ∧
    (∀ c, findById storeResolved 0 = some c → c.status ≠ "closed") ∧
    ((∃ tok body u c, Op.pay (.valid 1) 0 card4242 = .pay tok 0 body ∧
        protect storeResolved tok = .ok u ∧ findById storeResolved 0 = some c ∧
        c.user = u.id ∧ c.status = "resolved" ∧ (pay storeResolved env0 tok 0 body).2.isOk = true) ∨
    (∃ tok body u, Op.pay (.valid 1) 0 card4242 = .setStatus tok 0 body ∧
        protect storeResolved tok = .ok u ∧ admin u = true ∧ body.status = some "closed")) :=
  have hb : ∀ c, findById storeResolved 0 = some c → c.status ≠ "closed" := fun c h => by
    have h0 : findById storeResolved 0 = some resolvedDoc := by decide
    rw [h0] at h
    injection h with h
    subst h
    decide
  ⟨by decide, by decide, hb,
    closed_only_by_pay_or_admin storeResolved env0 (.pay (.valid 1) 0 card4242) 0 closedDoc
      (by decide) (by decide) hb⟩

/-! ## Closed complaints and their payment status -/

/-- C4 (as stated) fails: the store obtained from an empty complaint collection
by one create and one administrator's setStatus request with target `closed`
holds a closed complaint whose paymentStatus is `pending`. -/
theorem reachable_closed_unpaid :
    Reachable storeAdminClosed ∧
    ∃ c ∈ storeAdminClosed.complaints, c.status = "closed" ∧ c.paymentStatus = "pending" :=
  ⟨ReachableBy.step env0 _ (ReachableBy.step env0 _ (ReachableBy.init _ _) trivial) trivial,
    { pendingDoc with status := "closed" }, by decide, by decide, by decide⟩

/-- C4 (amended): in every store reachable from an empty complaint collection
by create, edit, pay and delete requests and by those setStatus requests that
do not name `closed` as target status and that either name a target status or
carry no paymentStatus, every complaint with status `closed` has paymentStatus
`completed`. -/
theorem closed_implies_completed (s : Store) (h : ReachableBy Op.noAdminClose s) :
    ∀ c ∈ s.complaints, c.status = "closed" → c.paymentStatus = "completed" := by
  induction h with
  | init users n => intro c hc; simp at hc
  | @step s env op _ hallowed ih =>
    intro d hd hclosed
    have same : step s env op = s → d.paymentStatus = "completed" := fun h => by
      rw [h] at hd
      exact ih d hd hclosed
    cases op with
    | create tok body =>
      rcases createComplaint_cases s env tok body with ⟨h, _⟩ | ⟨u, _, _, h⟩
      · exact same h
      · simp only [step, h, List.mem_append, List.mem_singleton] at hd
        rcases hd with hd | hd
        · exact ih d hd hclosed
        · rw [hd] at hclosed
          have hpc : ("pending" : String) = "closed" := hclosed
          exact absurd hpc (by decide)
    | edit tok i body =>
      rcases editComplaint_cases s env tok i body with ⟨h, _⟩ | ⟨u, c, _, hc, _, hst, _, h⟩
      · exact same h
      · simp only [step, h] at hd
        rcases mem_replaceDoc hd with hd | hd
        · rw [hd] at hclosed
          have hcs : c.status = "closed" := hclosed
          rw [hst] at hcs
          exact absurd hcs (by decide)
        · exact ih d hd hclosed
    | setStatus tok i body =>
      rcases setStatus_cases s env tok i body with ⟨h, _⟩ | ⟨u, c, _, _, hc, _, h⟩
      · exact same h
      · simp only [step, h] at hd
        rcases mem_replaceDoc hd with hd | hd
        · rw [hd, preSave_status, applyStatusBody_status] at hclosed
          have hps : d.paymentStatus = strOr body.paymentStatus c.paymentStatus := by
            rw [hd]; exact applyStatusBody_paymentStatus c body
          obtain ⟨hnc, hor⟩ := hallowed
          cases hb : body.status with
          | some t =>
            by_cases ht : t = ""
            · subst ht
              rw [hb] at hclosed hor
              have hcs : c.status = "closed" := by simpa [strOr] using hclosed
              have hp0 : strOr body.paymentStatus "" = "" := by
                rcases hor with hor | hor
                · exact absurd (by simp [strOr]) hor
                · exact hor
              have hpe : strOr body.paymentStatus c.paymentStatus = c.paymentStatus := by
                unfold strOr at hp0 ⊢
                cases hq : body.paymentStatus with
                | none => rfl
                | some q =>
                  rw [hq] at hp0
                  by_cases hq0 : q = ""
                  · simp [hq0]
                  · simp [hq0] at hp0
              rw [hps, hpe]
              exact ih c (findById_mem hc) hcs
            · rw [hb, strOr_some ht] at hclosed
              rw [hb, hclosed] at hnc
              exact absurd rfl hnc
          | none =>
            rw [hb] at hclosed hor
            have hcs : c.status = "closed" := by simpa [strOr] using hclosed
            have hp0 : strOr body.paymentStatus "" = "" := by
              rcases hor with hor | hor
              · exact absurd (by simp [strOr]) hor
              · exact hor
            have hpe : strOr body.paymentStatus c.paymentStatus = c.paymentStatus := by
              unfold strOr at hp0 ⊢
              cases hq : body.paymentStatus with
              | none => rfl
              | some q =>
                rw [hq] at hp0
                by_cases hq0 : q = ""
                · simp [hq0]
                · simp [hq0] at hp0
            rw [hps, hpe]
            exact ih c (findById_mem hc) hcs
        · exact ih d hd hclosed
    | pay tok i body =>
      rcases pay_cases s env tok i body with ⟨h, _⟩ | ⟨u, c, owner, _, _, _, _, _, _, h⟩
      · exact same h
      · simp only [step, h] at hd
        rcases mem_replaceDoc hd with hd | hd
        · rw [hd]; rfl
        · exact ih d hd hclosed
    | delete tok i =>
      rcases deleteComplaint_cases s tok i with ⟨h, _⟩ | ⟨u, c, _, _, _, h⟩
      · exact same h
      · simp only [step, h, deleteOne, List.mem_filter] at hd
        exact ih d hd.1 hclosed
    | adminDelete tok i =>
      rcases adminDeleteComplaint_cases s tok i with ⟨h, _⟩ | ⟨u, c, _, _, _, h⟩
      · exact same h
      · simp only [step, h, deleteOne, List.mem_filter] at hd
        exact ih d hd.1 hclosed

theorem closed_implies_completed_witness :
    ReachableBy Op.noAdminClose storeClosed ∧
    (∃ c ∈ storeClosed.complaints, c.status = "closed") ∧
    ∀ c ∈ storeClosed.complaints, c.status = "closed" → c.paymentStatus = "completed" :=
  have hr : ReachableBy Op.noAdminClose storeClosed :=
    ReachableBy.step env0 _
      (ReachableBy.step env0 _
        (ReachableBy.step env0 _ (ReachableBy.init _ _) trivial)
        ⟨by decide, Or.inl (by decide)⟩)
      trivial
  ⟨hr, ⟨closedDoc, by decide, by decide⟩, closed_implies_completed storeClosed hr⟩

/-! ## Payment is refused unless the complaint is resolved -/

/-- A pay call on an identifier that does not resolve to a resolved complaint
fails and leaves the store as it was. -/
theorem pay_fails_of_not_resolved {s : Store} {id : ObjectId}
    (h : ∀ c, findById s id = some c → c.status ≠ "resolved")
    (env : Env) (tok : Token) (body : PayBody) :
    (pay s env tok id body).1 = s ∧ (pay s env tok id body).2.isOk = false := by
  rcases pay_cases s env tok id body with hfail | ⟨u, c, owner, _, hc, _, _, hst, _, _⟩
  · exact hfail
  · exact absurd hst (h c hc)

/-- The status found under `id` after a request other than an admin status
update is the one found before, or `pending`, or `closed`. -/
theorem step_status {s : Store} {env : Env} {op : Op} {id : ObjectId} {c' : Complaint}
    (hop : op.notSetStatus) (hafter : findById (step s env op) id = some c') :
    (∃ c, findById s id = some c ∧ c.status = c'.status) ∨
      c'.status = "pending" ∨ c'.status = "closed" := by
  have same : step s env op = s → ∃ c, findById s id = some c ∧ c.status = c'.status :=
    fun h => by rw [h] at hafter; exact ⟨c', hafter, rfl⟩
  cases op with
  | create tok body =>
    rcases createComplaint_cases s env tok body with ⟨h, _⟩ | ⟨u, _, _, h⟩
    · exact Or.inl (same h)
    · have h1 : findById (step s env (.create tok body)) id
          = match findById s id with
            | some c => some c
            | none => if (preSave env (newComplaint s env u body)).id = id
                then some (preSave env (newComplaint s env u body)) else none := by
        simp only [step, h, findById]
        exact find_append _ _ _
      rw [hafter] at h1
      cases hc : findById s id with
      | some c =>
        rw [hc] at h1
        injection h1 with h1
        exact Or.inl ⟨c, rfl, by rw [h1]⟩
      | none =>
        rw [hc] at h1
        by_cases hid : (preSave env (newComplaint s env u body)).id = id
        · simp only [hid, if_true] at h1
          injection h1 with h1
          right; left
          rw [h1]; rfl
        · simp [hid] at h1
  | edit tok i body =>
    rcases editComplaint_cases s env tok i body with ⟨h, _⟩ | ⟨u, c, _, hc, _, hst, _, h⟩
    · exact Or.inl (same h)
    · have hdid : (preSave env (applyEdit c body)).id = i :=
        (findById_id hc : c.id = i)
      simp only [step, h, findById_replaceDoc, hdid] at hafter
      by_cases hi : id = i
      · subst hi
        simp only [if_true, hc, Option.map_some'] at hafter
        injection hafter with hafter
        right; left
        rw [← hafter]
        exact hst
      · simp only [hi, if_false] at hafter
        exact Or.inl ⟨c', hafter, rfl⟩
  | setStatus tok i body => exact hop.elim
  | pay tok i body =>
    rcases pay_cases s env tok i body with ⟨h, _⟩ | ⟨u, c, owner, hp, hc, _, hown, hst, _, h⟩
    · exact Or.inl (same h)
    · have hdid : (preSave env (applyPayment env c owner body)).id = i :=
        (findById_id hc : c.id = i)
      simp only [step, h, findById_replaceDoc, hdid] at hafter
      by_cases hi : id = i
      · subst hi
        simp only [if_true, hc, Option.map_some'] at hafter
        injection hafter with hafter
        right; right
        rw [← hafter]; rfl
      · simp only [hi, if_false] at hafter
        exact Or.inl ⟨c', hafter, rfl⟩
  | delete tok i =>
    rcases deleteComplaint_cases s tok i with ⟨h, _⟩ | ⟨u, c, _, _, _, h⟩
    · exact Or.inl (same h)
    · simp only [step, h, findById_deleteOne] at hafter
      by_cases hid : id = i
      · simp [hid] at hafter
      · simp only [hid, if_false] at hafter
        exact Or.inl ⟨c', hafter, rfl⟩
  | adminDelete tok i =>
    rcases adminDeleteComplaint_cases s tok i with ⟨h, _⟩ | ⟨u, c, _, _, _, h⟩
    · exact Or.inl (same h)
    · simp only [step, h, findById_deleteOne] at hafter
      by_cases hid : id = i
      · simp [hid] at hafter
      · simp only [hid, if_false] at hafter
        exact Or.inl ⟨c', hafter, rfl⟩

/-- Without an admin status update, an identifier that holds no resolved
complaint never comes to hold one. -/
theorem run_not_resolved {id : ObjectId} (ops : List (Env × Op)) :
    ∀ s : Store, (∀ eo ∈ ops, eo.2.notSetStatus) →
      (∀ c, findById s id = some c → c.status ≠ "resolved") →
      ∀ c, findById (run s ops) id = some c → c.status ≠ "resolved" := by
  induction ops with
  | nil => intro s _ h; exact h
  | cons eo rest ih =>
    intro s hops h
    obtain ⟨env, op⟩ := eo
    apply ih (step s env op) (fun e he => hops e (List.mem_cons_of_mem _ he))
    intro c' hc'
    have hop : op.notSetStatus := hops (env, op) (List.mem_cons_self _ _)
    rcases step_status hop hc' with ⟨c, hc, hcs⟩ | hpend | hcl
    · rw [← hcs]; exact h c hc
    · rw [hpend]; decide
    · rw [hcl]; decide

/-- After a successful pay call the complaint is stored as closed. -/
theorem pay_ok_closed {s : Store} {env : Env} {tok : Token} {id : ObjectId} {body : PayBody}
    (hok : (pay s env tok id body).2.isOk = true) :
    ∀ c, findById (pay s env tok id body).1 id = some c → c.status ≠ "resolved" := by
  rcases pay_cases s env tok id body with ⟨_, hfail⟩ | ⟨u, c, owner, _, hc, _, _, _, _, h⟩
  · rw [hfail] at hok; exact absurd hok (by decide)
  · intro d hd
    have hdid : (preSave env (applyPayment env c owner body)).id = id :=
      (findById_id hc : c.id = id)
    simp only [h, findById_replaceDoc, hdid, if_true, hc, Option.map_some'] at hd
    injection hd with hd
    rw [← hd]
    show ("closed" : String) ≠ "resolved"
    decide

/-- C5 (as stated) fails in its last clause: complaint 0 is paid, put back to
`resolved` by the administrator, and paid a second time; both pay calls
succeed. -/
theorem complaint_paid_twice :
    (pay storeResolved env0 (.valid 1) 0 card4242).2.isOk = true ∧
    storeClosed = (pay storeResolved env0 (.valid 1) 0 card4242).1 ∧
    storeReopened = (setStatus storeClosed env0 (.valid 9) 0 { status := some "resolved" }).1 ∧
    (pay storeReopened env0 (.valid 1) 0 card4242).2.isOk = true := by
  decide

/-- C5 (amended): for every existing complaint whose status is not `resolved`
(so for `pending`, `in-progress`, `rejected` and `closed`) and every pay
request by any principal, pay fails and the store, hence the stored complaint,
is unchanged; consequently, after a successful pay call on a complaint, every
later pay call on it fails for as long as no admin setStatus request
intervenes. -/
theorem pay_rejected_unless_resolved (s : Store) (id : ObjectId) :
    (∀ c, findById s id = some c → c.status ≠ "resolved" →
      ∀ env tok body,
        (pay s env tok id body).1 = s ∧ findById (pay s env tok id body).1 id = some c ∧
          (pay s env tok id body).2.isOk = false) ∧
    (∀ env tok body, (pay s env tok id body).2.isOk = true →
      ∀ ops : List (Env × Op), (∀ eo ∈ ops, eo.2.notSetStatus) →
        ∀ env' tok' body',
          (pay (run (pay s env tok id body).1 ops) env' tok' id body').1
              = run (pay s env tok id body).1 ops ∧
            (pay (run (pay s env tok id body).1 ops) env' tok' id body').2.isOk = false) := by
  constructor
  · intro c hc hst env tok body
    have h : ∀ d, findById s id = some d → d.status ≠ "resolved" := fun d hd => by
      rw [hc] at hd; injection hd with hd; rw [← hd]; exact hst
    obtain ⟨h1, h2⟩ := pay_fails_of_not_resolved h env tok body
    exact ⟨h1, by rw [h1]; exact hc, h2⟩
  · intro env tok body hok ops hops env' tok' body'
    exact pay_fails_of_not_resolved (run_not_resolved ops _ hops (pay_ok_closed hok)) env' tok' body'

theorem pay_rejected_unless_resolved_witness :
    (findById storePending 0 = some pendingDoc ∧ pendingDoc.status ≠ "resolved" ∧
      (pay storePending env0 (.valid 1) 0 card4242).1 = storePending ∧
      findById (pay storePending env0 (.valid 1) 0 card4242).1 0 = some pendingDoc ∧
      (pay storePending env0 (.valid 1) 0 card4242).2.isOk = false) ∧
    ((pay storeResolved env0 (.valid 1) 0 card4242).2.isOk = true ∧
      (pay (run (pay storeResolved env0 (.valid 1) 0 card4242).1
          [(env0, .create (.valid 2) faucet)]) env0 (.valid 1) 0 card4242).1
        = run (pay storeResolved env0 (.valid 1) 0 card4242).1 [(env0, .create (.valid 2) faucet)] ∧
      (pay (run (pay storeResolved env0 (.valid 1) 0 card4242).1
          [(env0, .create (.valid 2) faucet)]) env0 (.valid 1) 0 card4242).2.isOk = false) :=
  ⟨⟨by decide, by decide,
      (pay_rejected_unless_resolved storePending 0).1 pendingDoc (by decide) (by decide)
        env0 (.valid 1) card4242⟩,
    by decide,
    (pay_rejected_unless_resolved storeResolved 0).2 env0 (.valid 1) card4242 (by decide)
      [(env0, .create (.valid 2) faucet)]
      (fun eo h => by
        rw [List.mem_singleton] at h
        rw [h]
        trivial)
      env0 (.valid 1) card4242⟩

/-! ## Payment by a principal other than the owner -/

/-- C6: for every existing complaint whose owner record is in the store and
every authenticated principal whose id differs from the complaint's owner id,
pay is answered with status 403, whatever the complaint's status, and the
store, hence the stored complaint, is unchanged. -/
theorem pay_forbidden_for_non_owner (s : Store) (env : Env) (tok : Token) (id : ObjectId)
    (body : PayBody) (u : User) (c : Complaint) (owner : User)
    (hp : protect s tok = .ok u) (hc : findById s id = some c)
    (ho : findUser s c.user = some owner) (hne : u.id ≠ c.user) :
    pay s env tok id body
        = (s, .fail 403 "Not authorized to make payment for this complaint") ∧
      (pay s env tok id body).2.code = 403 ∧
      findById (pay s env tok id body).1 id = some c := by
  have hown : owner.id ≠ u.id := by
    rw [findUser_id ho]; exact fun h => hne h.symm
  have h : pay s env tok id body
      = (s, .fail 403 "Not authorized to make payment for this complaint") := by
    rw [pay, withUser_ok _ hp]
    simp [processPayment, hc, ho, hown]
  rw [h]
  exact ⟨rfl, rfl, hc⟩

theorem pay_forbidden_for_non_owner_witness :
    protect storeResolved (.valid 2) = .ok bob ∧
    findById storeResolved 0 = some resolvedDoc ∧
    findUser storeResolved resolvedDoc.user = some alice ∧ bob.id ≠ resolvedDoc.user ∧
    (pay storeResolved env0 (.valid 2) 0 card4242
        = (storeResolved, .fail 403 "Not authorized to make payment for this complaint") ∧
      (pay storeResolved env0 (.valid 2) 0 card4242).2.code = 403 ∧
      findById (pay storeResolved env0 (.valid 2) 0 card4242).1 0 = some resolvedDoc) :=
  ⟨rfl, by decide, by decide, by decide,
    pay_forbidden_for_non_owner storeResolved env0 (.valid 2) 0 card4242 bob resolvedDoc alice
      rfl (by decide) (by decide) (by decide)⟩

/-! ## Payment by the owner of a resolved complaint -/

theorem validate_applyPayment {env : Env} {c : Complaint} {owner : User} {body : PayBody}
    (hv : validate c = true) : validate (applyPayment env c owner body) = true := by
  rw [validate_iff] at hv ⊢
  obtain ⟨h1, h2, h3, _, _, h6⟩ := hv
  have hs : ("closed" : String) ∈ statusEnum := by decide
  have hps : ("completed" : String) ∈ paymentStatusEnum := by decide
  exact ⟨h1, h2, h3, hs, hps, h6⟩

/-- The owner's pay call on a schema-valid resolved complaint is accepted, and
the complaint is then stored as the paid document. -/
theorem pay_accepts {s : Store} (env : Env) {tok : Token} {id : ObjectId} (body : PayBody)
    {u : User} {c : Complaint}
    (hp : protect s tok = .ok u) (hc : findById s id = some c) (hown : c.user = u.id)
    (hst : c.status = "resolved") (hv : validate c = true) :
    pay s env tok id body
        = (replaceDoc s (preSave env (applyPayment env c u body)),
            .ok (preSave env (applyPayment env c u body))) ∧
      findById (replaceDoc s (preSave env (applyPayment env c u body))) id
        = some (preSave env (applyPayment env c u body)) := by
  have ho : findUser s c.user = some u := by rw [hown]; exact protect_findUser hp
  have hv' : validate (applyPayment env c u body) = true := validate_applyPayment hv
  constructor
  · rw [pay, withUser_ok _ hp]
    simp [processPayment, hc, ho, hst, save_valid s env _ hv']
  · have hdid : (preSave env (applyPayment env c u body)).id = id :=
      (findById_id hc : c.id = id)
    rw [findById_replaceDoc, hdid]
    simp [hc]

/-- C7: for every schema-valid complaint with status `resolved` and every pay
request by its owner, pay succeeds and the stored complaint afterwards has
status `closed`, paymentStatus `completed`, a paymentDate, and a
paymentDetails sub-record whose status is `completed`; its owner, title,
description, category, priority and paymentAmount are unchanged. -/
theorem pay_closes_resolved (s : Store) (env : Env) (tok : Token) (id : ObjectId)
    (body : PayBody) (u : User) (c : Complaint)
    (hp : protect s tok = .ok u) (hc : findById s id = some c) (hown : c.user = u.id)
    (hst : c.status = "resolved") (hv : validate c = true) :
    ∃ s' doc, pay s env tok id body = (s', .ok doc) ∧ findById s' id = some doc ∧
      doc.status = "closed" ∧ doc.paymentStatus = "completed" ∧
      doc.paymentDate = some env.now ∧
      (∃ pd, doc.paymentDetails = some pd ∧ pd.status = "completed") ∧
      doc.user = c.user ∧ doc.title = c.title ∧ doc.description = c.description ∧
      doc.category = c.category ∧ doc.priority = c.priority ∧
      doc.paymentAmount = c.paymentAmount := by
  obtain ⟨h1, h2⟩ := pay_accepts env body hp hc hown hst hv
  exact ⟨_, _, h1, h2, rfl, rfl, rfl, ⟨_, rfl, rfl⟩, rfl, rfl, rfl, rfl, rfl, rfl⟩

theorem pay_closes_resolved_witness :
    protect storeResolved (.valid 1) = .ok alice ∧
    findById storeResolved 0 = some resolvedDoc ∧ resolvedDoc.user = alice.id ∧
    resolvedDoc.status = "resolved" ∧ validate resolvedDoc = true ∧
    ∃ s' doc, pay storeResolved env0 (.valid 1) 0 card4242 = (s', .ok doc) ∧
      findById s' 0 = some doc ∧
      doc.status = "closed" ∧ doc.paymentStatus = "completed" ∧
      doc.paymentDate = some env0.now ∧
      (∃ pd, doc.paymentDetails = some pd ∧ pd.status = "completed") ∧
      doc.user = resolvedDoc.user ∧ doc.title = resolvedDoc.title ∧
      doc.description = resolvedDoc.description ∧
      doc.category = resolvedDoc.category ∧ doc.priority = resolvedDoc.priority ∧
      doc.paymentAmount = resolvedDoc.paymentAmount :=
  ⟨rfl, by decide, by decide, by decide, by decide,
    pay_closes_resolved storeResolved env0 (.valid 1) 0 card4242 alice resolvedDoc
      rfl (by decide) (by decide) (by decide) (by decide)⟩

/-! ## The recorded amount -/

theorem recordedAmount_pay {s : Store} (env : Env) {tok : Token} {id : ObjectId} (body : PayBody)
    {u : User} {c : Complaint}
    (hp : protect s tok = .ok u) (hc : findById s id = some c) (hown : c.user = u.id)
    (hst : c.status = "resolved") (hv : validate c = true) :
    recordedAmount (pay s env tok id body).1 id
      = some (numOr body.amount (numOr (some c.paymentAmount) 500)) := by
  obtain ⟨h1, h2⟩ := pay_accepts env body hp hc hown hst hv
  rw [recordedAmount, h1, h2]
  rfl

theorem numOr_some {a b : Int} (ha : a ≠ 0) : numOr (some a) b = a := by
  simp [numOr, ha]

theorem numOr_absent {a : Option Int} {b : Int} (ha : a = none ∨ a = some 0) : numOr a b = b := by
  rcases ha with ha | ha <;> simp [numOr, ha]

/-- C8 (as stated) fails: on the resolved complaint 0, whose admin-set
paymentAmount is 1500, two pay requests by the owner that differ only in
`amount` record 1500 and 1: the amount of the request is recorded. -/
theorem pay_records_client_amount :
    (findById storeResolved 0).map (fun c => (c.status, c.paymentAmount))
      = some ("resolved", 1500) ∧
    recordedAmount (pay storeResolved env0 (.valid 1) 0 card4242).1 0 = some 1500 ∧
    recordedAmount (pay storeResolved env0 (.valid 1) 0 { card4242 with amount := some 1 }).1 0
      = some 1 := by
  decide

/-- C8 (amended): for every schema-valid resolved complaint and every pay
request by its owner, the recorded paymentDetails.amount is the amount of the
request when the request carries a non-zero one; when the request carries no
amount (or zero) it is the complaint's admin-set paymentAmount, provided that
is non-zero; hence any two pay requests that both carry no amount record the
same amount. -/
theorem pay_amount_request_then_admin (s : Store) (env : Env) (tok : Token) (id : ObjectId)
    (body : PayBody) (u : User) (c : Complaint)
    (hp : protect s tok = .ok u) (hc : findById s id = some c) (hown : c.user = u.id)
    (hst : c.status = "resolved") (hv : validate c = true) :
    (∀ a, body.amount = some a → a ≠ 0 →
      recordedAmount (pay s env tok id body).1 id = some a) ∧
    ((body.amount = none ∨ body.amount = some 0) → c.paymentAmount ≠ 0 →
      recordedAmount (pay s env tok id body).1 id = some c.paymentAmount) ∧
    (∀ body2 : PayBody, (body.amount = none ∨ body.amount = some 0) →
      (body2.amount = none ∨ body2.amount = some 0) →
      recordedAmount (pay s env tok id body2).1 id
        = recordedAmount (pay s env tok id body).1 id) := by
  refine ⟨?_, ?_, ?_⟩
  · intro a ha hne
    rw [recordedAmount_pay env body hp hc hown hst hv, ha, numOr_some hne]
  · intro ha hne
    rw [recordedAmount_pay env body hp hc hown hst hv, numOr_absent ha, numOr_some hne]
  · intro body2 ha ha2
    rw [recordedAmount_pay env body hp hc hown hst hv,
      recordedAmount_pay env body2 hp hc hown hst hv, numOr_absent ha, numOr_absent ha2]

theorem pay_amount_request_then_admin_witness :
    protect storeResolved (.valid 1) = .ok alice ∧
    findById storeResolved 0 = some resolvedDoc ∧ resolvedDoc.user = alice.id ∧
    resolvedDoc.status = "resolved" ∧ validate resolvedDoc = true ∧
    recordedAmount (pay storeResolved env0 (.valid 1) 0 { cardholderName := some "Alice" }).1 0
      = some resolvedDoc.paymentAmount :=
  ⟨rfl, by decide, by decide, by decide, by decide,
    (pay_amount_request_then_admin storeResolved env0 (.valid 1) 0
      { cardholderName := some "Alice" } alice resolvedDoc
      rfl (by decide) (by decide) (by decide) (by decide)).2.1 (Or.inl rfl) (by decide)⟩

/-- C9 (as stated) fails: complaint 0 was resolved without a payment amount, so
its paymentAmount is 0; the owner's pay request without an amount succeeds,
the complaint is closed, and the recorded amount is 500, which neither the
administrator nor the request supplied. -/
theorem pay_succeeds_with_zero_amount :
    (findById storeResolvedNoAmount 0).map (fun c => (c.status, c.paymentAmount))
      = some ("resolved", 0) ∧
    (pay storeResolvedNoAmount env0 (.valid 1) 0 {}).2.isOk = true ∧
    (findById (pay storeResolvedNoAmount env0 (.valid 1) 0 {}).1 0).map (fun c => c.status)
      = some "closed" ∧
    recordedAmount (pay storeResolvedNoAmount env0 (.valid 1) 0 {}).1 0 = some 500 := by
  decide

/-- C9 (amended): pay by the owner of a schema-valid resolved complaint does
not depend on a positive paymentAmount: for every such complaint whose
paymentAmount is 0, pay by the owner succeeds and the complaint is closed;
the recorded amount is then the non-zero amount of the request, or the
handler's default 500 when the request carries no amount (or zero). -/
theorem pay_zero_amount_accepted (s : Store) (env : Env) (tok : Token) (id : ObjectId)
    (body : PayBody) (u : User) (c : Complaint)
    (hp : protect s tok = .ok u) (hc : findById s id = some c) (hown : c.user = u.id)
    (hst : c.status = "resolved") (hv : validate c = true) (hz : c.paymentAmount = 0) :
    (pay s env tok id body).2.isOk = true ∧
    (findById (pay s env tok id body).1 id).map (fun d => d.status) = some "closed" ∧
    (∀ a, body.amount = some a → a ≠ 0 →
      recordedAmount (pay s env tok id body).1 id = some a) ∧
    ((body.amount = none ∨ body.amount = some 0) →
      recordedAmount (pay s env tok id body).1 id = some 500) := by
  obtain ⟨h1, h2⟩ := pay_accepts env body hp hc hown hst hv
  refine ⟨by rw [h1]; rfl, by rw [h1, h2]; rfl, ?_, ?_⟩
  · intro a ha hne
    rw [recordedAmount_pay env body hp hc hown hst hv, ha, numOr_some hne]
  · intro ha
    rw [recordedAmount_pay env body hp hc hown hst hv, numOr_absent ha, hz]
    rfl

theorem pay_zero_amount_accepted_witness :
    protect storeResolvedNoAmount (.valid 1) = .ok alice ∧
    findById storeResolvedNoAmount 0 = some { pendingDoc with status := "resolved" } ∧
    validate { pendingDoc with status := "resolved" } = true ∧
    (pay storeResolvedNoAmount env0 (.valid 1) 0 {}).2.isOk = true ∧
    (findById (pay storeResolvedNoAmount env0 (.valid 1) 0 {}).1 0).map (fun d => d.status)
      = some "closed" ∧
    recordedAmount (pay storeResolvedNoAmount env0 (.valid 1) 0 {}).1 0 = some 500 :=
  have h := pay_zero_amount_accepted storeResolvedNoAmount env0 (.valid 1) 0 {} alice
    { pendingDoc with status := "resolved" } rfl (by decide) (by decide) (by decide)
    (by decide) (by decide)
  ⟨rfl, by decide, by decide, h.1, h.2.1, h.2.2.2 (Or.inl rfl)⟩

/-! ## The stored card suffix -/

theorem slice4_eq_lastFourChars (n : String) : slice4 n = lastFourChars n := by
  unfold slice4 lastFourChars
  rw [List.take_reverse, List.reverse_reverse]

theorem slice4_length (n : String) : (slice4 n).length ≤ 4 := by
  show (n.data.drop (n.data.length - 4)).length ≤ 4
  rw [List.length_drop]
  omega

theorem slice4_short (n : String) (h : n.length ≤ 4) : slice4 n = n := by
  have h0 : n.data.length - 4 = 0 := by
    have : n.data.length ≤ 4 := h
    omega
  unfold slice4
  rw [h0, List.drop_zero]

theorem slice4_append (pre suffix : String) (h : suffix.length = 4) :
    slice4 (pre ++ suffix) = suffix := by
  have h4 : suffix.data.length = 4 := h
  unfold slice4
  have hlen : (pre ++ suffix).data.length - 4 = pre.data.length := by
    rw [String.data_append, List.length_append, h4]
    omega
  rw [hlen, String.data_append, List.drop_left]

theorem cardLastFour_of_number {cd : CardDetails} {n : String}
    (hn : cd.cardNumber = some n) (hne : n ≠ "") : cardLastFour (some cd) = slice4 n := by
  simp [cardLastFour, hn, hne]

/-- The `paymentDetails` object depends on the request only through its
top-level fields and the masked card suffix. -/
theorem paymentDetails_congr (env : Env) (c : Complaint) (owner : User) (b1 b2 : PayBody)
    (ha : b2.amount = b1.amount) (hcur : b2.currency = b1.currency)
    (hm : b2.paymentMethod = b1.paymentMethod) (hn : b2.cardholderName = b1.cardholderName)
    (hcard : cardLastFour b2.cardDetails = cardLastFour b1.cardDetails) :
    paymentDetails env c owner b2 = paymentDetails env c owner b1 := by
  simp [paymentDetails, ha, hcur, hm, hn, hcard]

theorem pay_congr (s : Store) (env : Env) (tok : Token) (id : ObjectId) (b1 b2 : PayBody)
    (ha : b2.amount = b1.amount) (hcur : b2.currency = b1.currency)
    (hm : b2.paymentMethod = b1.paymentMethod) (hn : b2.cardholderName = b1.cardholderName)
    (hcard : cardLastFour b2.cardDetails = cardLastFour b1.cardDetails) :
    pay s env tok id b2 = pay s env tok id b1 := by
  have happ : ∀ c owner, applyPayment env c owner b2 = applyPayment env c owner b1 := by
    intro c owner
    simp [applyPayment, paymentDetails_congr env c owner b1 b2 ha hcur hm hn hcard]
  simp only [pay, processPayment, happ]

/-- C10: for every successful pay, the stored complaint carries a payment
sub-record whose `cardLastFour` is, when the request carries a non-empty card
number `n`, exactly the last four characters of `n`: it has length at most 4,
is all of `n` when `n` has at most four characters, and is "4242" for a card
ending 4242; when the request carries no card number it is "****". The
stored complaint and the reply are the same for any other request with the
same top-level fields whose card number has the same last four characters, so
nothing persisted holds more of the card number than that suffix. -/
theorem pay_stores_card_suffix (s : Store) (env : Env) (tok : Token) (id : ObjectId)
    (body : PayBody) (s' : Store) (doc : Complaint)
    (h : pay s env tok id body = (s', .ok doc)) :
    findById s' id = some doc ∧
    ∃ pd, doc.paymentDetails = some pd ∧
      (∀ cd n, body.cardDetails = some cd → cd.cardNumber = some n → n ≠ "" →
        pd.cardLastFour = lastFourChars n ∧ pd.cardLastFour.length ≤ 4 ∧
        (n.length ≤ 4 → pd.cardLastFour = n) ∧
        (∀ pre : String, n = pre ++ "4242" → pd.cardLastFour = "4242")) ∧
      ((body.cardDetails = none ∨
          ∃ cd, body.cardDetails = some cd ∧ (cd.cardNumber = none ∨ cd.cardNumber = some "")) →
        pd.cardLastFour = "****") ∧
      (∀ body2 : PayBody, body2.amount = body.amount → body2.currency = body.currency →
        body2.paymentMethod = body.paymentMethod →
        body2.cardholderName = body.cardholderName →
        cardLastFour body2.cardDetails = cardLastFour body.cardDetails →
        pay s env tok id body2 = (s', .ok doc)) := by
  rcases pay_cases s env tok id body with ⟨_, hfail⟩ | ⟨u, c, owner, _, hc, _, _, _, _, hpay⟩
  · rw [h] at hfail
    have hft : true = false := hfail
    exact absurd hft (by decide)
  · rw [h] at hpay
    injection hpay with hs hr
    injection hr with hdoc
    subst hs hdoc
    have hdid : (preSave env (applyPayment env c owner body)).id = id :=
      (findById_id hc : c.id = id)
    refine ⟨by rw [findById_replaceDoc, hdid]; simp [hc], paymentDetails env c owner body,
      rfl, ?_, ?_, ?_⟩
    · intro cd n hcd hn hne
      have hl : (paymentDetails env c owner body).cardLastFour = slice4 n := by
        show cardLastFour body.cardDetails = slice4 n
        rw [hcd]; exact cardLastFour_of_number hn hne
      rw [hl]
      refine ⟨slice4_eq_lastFourChars n, slice4_length n, slice4_short n, ?_⟩
      intro pre hpre
      rw [hpre]
      exact slice4_append pre "4242" (by decide)
    · intro hnone
      show cardLastFour body.cardDetails = "****"
      rcases hnone with hnone | ⟨cd, hcd, hnum | hnum⟩
      · rw [hnone]; rfl
      · rw [hcd]; simp [cardLastFour, hnum]
      · rw [hcd]; simp [cardLastFour, hnum]
    · intro body2 ha hcur hm hn hcard
      rw [pay_congr s env tok id body body2 ha hcur hm hn hcard]
      exact h

theorem pay_stores_card_suffix_witness :
    pay storeResolved env0 (.valid 1) 0 card4242 = (storeClosed, .ok closedDoc) ∧
    findById storeClosed 0 = some closedDoc ∧
    ∃ pd, closedDoc.paymentDetails = some pd ∧ pd.cardLastFour = "4242" :=
  have hpay : pay storeResolved env0 (.valid 1) 0 card4242 = (storeClosed, .ok closedDoc) := by
    decide
  have h := pay_stores_card_suffix storeResolved env0 (.valid 1) 0 card4242 storeClosed closedDoc
    hpay
  ⟨hpay, h.1, by
    obtain ⟨pd, hpd, hcard, _, _⟩ := h.2
    exact ⟨pd, hpd, (hcard _ "4242424242424242" rfl rfl (by decide)).2.2.2 "424242424242" rfl⟩⟩

/-! ## Well-formedness of reachable stores

The hypotheses "the stored complaint passes schema validation" and "the
owner's record is in the store" used above hold of every complaint of every
reachable store. -/

theorem validate_preSave (env : Env) (c : Complaint) : validate (preSave env c) = validate c :=
  rfl

theorem reachable_wellFormed (s : Store) (h : Reachable s) :
    ∀ c ∈ s.complaints, validate c = true ∧ (findUser s c.user).isSome = true := by
  induction h with
  | init users n => intro c hc; simp at hc
  | @step s env op _ _ ih =>
    intro d hd
    cases op with
    | create tok body =>
      rcases createComplaint_cases s env tok body with ⟨h, _⟩ | ⟨u, hp, hv, h⟩
      · rw [show step s env (.create tok body) = s from h] at hd ⊢
        exact ih d hd
      · simp only [step, h, List.mem_append, List.mem_singleton] at hd ⊢
        rcases hd with hd | hd
        · exact ih d hd
        · subst hd
          refine ⟨hv, ?_⟩
          have hu : findUser s u.id = some u := protect_findUser hp
          show (findUser s u.id).isSome = true
          rw [hu]; rfl
    | edit tok i body =>
      rcases editComplaint_cases s env tok i body with ⟨h, _⟩ | ⟨u, c, _, hc, _, _, hv, h⟩
      · rw [show step s env (.edit tok i body) = s from h] at hd ⊢
        exact ih d hd
      · simp only [step, h] at hd ⊢
        rcases mem_replaceDoc hd with hd | hd
        · subst hd
          exact ⟨hv, (ih c (findById_mem hc)).2⟩
        · exact ih d hd
    | setStatus tok i body =>
      rcases setStatus_cases s env tok i body with ⟨h, _⟩ | ⟨u, c, _, _, hc, hv, h⟩
      · rw [show step s env (.setStatus tok i body) = s from h] at hd ⊢
        exact ih d hd
      · simp only [step, h] at hd ⊢
        rcases mem_replaceDoc hd with hd | hd
        · subst hd
          refine ⟨hv, ?_⟩
          show (findUser s (applyStatusBody c body).user).isSome = true
          rw [(applyStatusBody_frame c body).2.1]
          exact (ih c (findById_mem hc)).2
        · exact ih d hd
    | pay tok i body =>
      rcases pay_cases s env tok i body with ⟨h, _⟩ | ⟨u, c, owner, _, hc, _, _, _, hv, h⟩
      · rw [show step s env (.pay tok i body) = s from h] at hd ⊢
        exact ih d hd
      · simp only [step, h] at hd ⊢
        rcases mem_replaceDoc hd with hd | hd
        · subst hd
          exact ⟨hv, (ih c (findById_mem hc)).2⟩
        · exact ih d hd
    | delete tok i =>
      rcases deleteComplaint_cases s tok i with ⟨h, _⟩ | ⟨u, c, _, _, _, h⟩
      · rw [show step s env (.delete tok i) = s from h] at hd ⊢
        exact ih d hd
      · simp only [step, h, deleteOne, List.mem_filter] at hd ⊢
        exact ih d hd.1
    | adminDelete tok i =>
      rcases adminDeleteComplaint_cases s tok i with ⟨h, _⟩ | ⟨u, c, _, _, _, h⟩
      · rw [show step s env (.adminDelete tok i) = s from h] at hd ⊢
        exact ih d hd
      · simp only [step, h, deleteOne, List.mem_filter] at hd ⊢
        exact ih d hd.1

/-! ## The admin guard -/

theorem protect_toToken {s : Store} {p : Payload} {u : User} (hu : findUser s p.id = some u) :
    protect s p.toToken = .ok u := by
  simp [Payload.toToken, protect, hu]

theorem adminAllows_eq {s : Store} {p : Payload} {u : User} (hu : findUser s p.id = some u) :
    adminAllows s p.toToken = decide (u.role = "admin") := by
  simp [adminAllows, protect_toToken hu, admin]

theorem withAdmin_denied {α : Type} {s : Store} {tok : Token} {u : User}
    (hp : protect s tok = .ok u) (hr : u.role ≠ "admin") (h : Store × Reply α) :
    withAdmin s tok h = (s, .fail 401 "Not authorized as an admin") := by
  simp [withAdmin, hp, admin, hr]

/-- C11: for every verified token payload, whatever role it carries, whose
user id resolves to a stored user record, the guard chain `protect, admin`
decides by the stored role alone: it lets the request through exactly when
the stored role is `admin`, and two principals with the same stored role get
the same decision whatever their payloads, emails and stores. When the stored
role is not `admin`, every admin operation (any handler behind the chain, and
setStatus, admin delete, deleteUser, resetPassword and role update in
particular) is answered with the denial and the store is unchanged. -/
theorem admin_guard_by_stored_role (s : Store) (p : Payload) (u : User)
    (hu : findUser s p.id = some u) :
    adminAllows s p.toToken = decide (u.role = "admin") ∧
    (∀ (s2 : Store) (p2 : Payload) (u2 : User), findUser s2 p2.id = some u2 →
      u2.role = u.role → adminAllows s2 p2.toToken = adminAllows s p.toToken) ∧
    (u.role ≠ "admin" →
      (∀ (α : Type) (h : Store × Reply α),
        withAdmin s p.toToken h = (s, .fail 401 "Not authorized as an admin")) ∧
      (∀ env id body,
        setStatus s env p.toToken id body = (s, .fail 401 "Not authorized as an admin")) ∧
      (∀ id, adminDeleteComplaint s p.toToken id = (s, .fail 401 "Not authorized as an admin")) ∧
      (∀ uid, deleteUser s p.toToken uid = (s, .fail 401 "Not authorized as an admin")) ∧
      (∀ hash uid body,
        resetPassword hash s p.toToken uid body = (s, .fail 401 "Not authorized as an admin")) ∧
      (∀ uid body,
        updateUserRole s p.toToken uid body = (s, .fail 401 "Not authorized as an admin"))) := by
  have hp := protect_toToken hu
  refine ⟨adminAllows_eq hu, ?_, ?_⟩
  · intro s2 p2 u2 hu2 hrole
    rw [adminAllows_eq hu2, adminAllows_eq hu, hrole]
  · intro hr
    exact ⟨fun α h => withAdmin_denied hp hr h,
      fun env id body => withAdmin_denied hp hr _,
      fun id => withAdmin_denied hp hr _,
      fun uid => withAdmin_denied hp hr _,
      fun hash uid body => withAdmin_denied hp hr _,
      fun uid body => withAdmin_denied hp hr _⟩

theorem admin_guard_by_stored_role_witness :
    findUser storeLookalike (Payload.mk 3 "admin").id = some mallory ∧
    mallory.role ≠ "admin" ∧
    adminAllows storeLookalike (Payload.mk 3 "admin").toToken = false ∧
    setStatus storeLookalike env0 (Payload.mk 3 "admin").toToken 0 { status := some "closed" }
      = (storeLookalike, .fail 401 "Not authorized as an admin") ∧
    deleteUser storeLookalike (Payload.mk 3 "admin").toToken 1
      = (storeLookalike, .fail 401 "Not authorized as an admin") :=
  have h := admin_guard_by_stored_role storeLookalike (Payload.mk 3 "admin") mallory (by decide)
  have hr : mallory.role ≠ "admin" := by decide
  ⟨by decide, hr, by rw [h.1]; decide, (h.2.2 hr).2.1 env0 0 _, (h.2.2 hr).2.2.2.1 1⟩

/-! ## Editing a complaint -/

theorem applyEdit_frame (c : Complaint) (body : EditBody) :
    (applyEdit c body).id = c.id ∧ (applyEdit c body).user = c.user ∧
      (applyEdit c body).status = c.status ∧
      (applyEdit c body).paymentAmount = c.paymentAmount ∧
      (applyEdit c body).paymentStatus = c.paymentStatus ∧
      (applyEdit c body).paymentDate = c.paymentDate ∧
      (applyEdit c body).paymentDetails = c.paymentDetails ∧
      (applyEdit c body).doorNumber = c.doorNumber ∧
      (applyEdit c body).assignedTo = c.assignedTo ∧
      (applyEdit c body).createdAt = c.createdAt :=
  ⟨rfl, rfl, rfl, rfl, rfl, rfl, rfl, rfl, rfl, rfl⟩

/-- C12: for every stored complaint and every body sent to the user edit
operation, whatever further keys it carries (status, paymentAmount,
paymentStatus, paymentDetails, user, doorNumber), the complaint stored under
the same identifier after the call has the same owner, status, payment
amount, payment status, payment date, payment details, door number, assignee
and creation time: it differs at most in title, description, category,
priority and updatedAt. Every other complaint and every user record is
unchanged. -/
theorem edit_changes_content_only (s : Store) (env : Env) (tok : Token) (id : ObjectId)
    (raw : RawEditBody) (c : Complaint) (hc : findById s id = some c) :
    (∃ c', findById (editComplaint s env tok id raw.destructure).1 id = some c' ∧
      c'.id = c.id ∧ c'.user = c.user ∧ c'.status = c.status ∧
      c'.paymentAmount = c.paymentAmount ∧ c'.paymentStatus = c.paymentStatus ∧
      c'.paymentDate = c.paymentDate ∧ c'.paymentDetails = c.paymentDetails ∧
      c'.doorNumber = c.doorNumber ∧ c'.assignedTo = c.assignedTo ∧
      c'.createdAt = c.createdAt) ∧
    (∀ j, j ≠ id → findById (editComplaint s env tok id raw.destructure).1 j = findById s j) ∧
    (editComplaint s env tok id raw.destructure).1.users = s.users := by
  rcases editComplaint_cases s env tok id raw.destructure with ⟨h, _⟩ | ⟨u, d, _, hd, _, _, _, h⟩
  · rw [h]
    exact ⟨⟨c, hc, rfl, rfl, rfl, rfl, rfl, rfl, rfl, rfl, rfl, rfl⟩, fun _ _ => rfl, rfl⟩
  · rw [hc] at hd
    injection hd with hd
    subst hd
    have hid : c.id = id := findById_id hc
    rw [h]
    refine ⟨⟨preSave env (applyEdit c raw.destructure), ?_,
      rfl, rfl, rfl, rfl, rfl, rfl, rfl, rfl, rfl, rfl⟩, ?_, rfl⟩
    · rw [findById_replaceDoc]
      have hdid : (preSave env (applyEdit c raw.destructure)).id = id := hid
      simp [hdid, hc]
    · intro j hj
      rw [findById_replaceDoc]
      have hdid : (preSave env (applyEdit c raw.destructure)).id = id := hid
      simp [hdid, hj]

theorem edit_changes_content_only_witness :
    findById storePending 0 = some pendingDoc ∧
    (editComplaint storePending env0 (.valid 1) 0
      (RawEditBody.destructure
        { title := some "Leaky tap", status := some "closed", paymentAmount := some 1,
          paymentStatus := some "completed", user := some 2 })).2.isOk = true ∧
    ∃ c', findById (editComplaint storePending env0 (.valid 1) 0
        (RawEditBody.destructure
          { title := some "Leaky tap", status := some "closed", paymentAmount := some 1,
            paymentStatus := some "completed", user := some 2 })).1 0 = some c' ∧
      c'.id = pendingDoc.id ∧ c'.user = pendingDoc.user ∧ c'.status = pendingDoc.status ∧
      c'.paymentAmount = pendingDoc.paymentAmount ∧
      c'.paymentStatus = pendingDoc.paymentStatus ∧
      c'.paymentDate = pendingDoc.paymentDate ∧ c'.paymentDetails = pendingDoc.paymentDetails ∧
      c'.doorNumber = pendingDoc.doorNumber ∧ c'.assignedTo = pendingDoc.assignedTo ∧
      c'.createdAt = pendingDoc.createdAt :=
  ⟨by decide, by decide,
    (edit_changes_content_only storePending env0 (.valid 1) 0
      { title := some "Leaky tap", status := some "closed", paymentAmount := some 1,
        paymentStatus := some "completed", user := some 2 } pendingDoc (by decide)).1⟩

/-- C13: for every existing complaint and every authenticated principal whose
id differs from the complaint's owner id, the edit operation is answered with
status 403, whatever the complaint's status and the request body, and the
store, hence the stored complaint, is unchanged. -/
theorem edit_forbidden_for_non_owner (s : Store) (env : Env) (tok : Token) (id : ObjectId)
    (body : EditBody) (u : User) (c : Complaint)
    (hp : protect s tok = .ok u) (hc : findById s id = some c) (hne : u.id ≠ c.user) :
    editComplaint s env tok id body = (s, .fail 403 "Not authorized to edit this complaint") ∧
      (editComplaint s env tok id body).2.code = 403 ∧
      findById (editComplaint s env tok id body).1 id = some c := by
  have hown : ¬ c.user = u.id := fun h => hne h.symm
  have h : editComplaint s env tok id body
      = (s, .fail 403 "Not authorized to edit this complaint") := by
    rw [editComplaint, withUser_ok _ hp]
    simp [updateComplaint, hc, hown]
  rw [h]
  exact ⟨rfl, rfl, hc⟩

theorem edit_forbidden_for_non_owner_witness :
    protect storePending (.valid 2) = .ok bob ∧
    findById storePending 0 = some pendingDoc ∧ bob.id ≠ pendingDoc.user ∧
    (editComplaint storePending env0 (.valid 2) 0 { title := some "Mine now" }
        = (storePending, .fail 403 "Not authorized to edit this complaint") ∧
      (editComplaint storePending env0 (.valid 2) 0 { title := some "Mine now" }).2.code = 403 ∧
      findById (editComplaint storePending env0 (.valid 2) 0 { title := some "Mine now" }).1 0
        = some pendingDoc) :=
  ⟨rfl, by decide, by decide,
    edit_forbidden_for_non_owner storePending env0 (.valid 2) 0 { title := some "Mine now" }
      bob pendingDoc rfl (by decide) (by decide)⟩

theorem setIfSupplied_strOr (a : Option String) (old : String) :
    SetIfSupplied a old (strOr a old) := by
  constructor
  · intro t ha ht
    rw [ha]; exact strOr_some ht
  · intro ha
    rcases ha with ha | ha <;> simp [strOr, ha]

theorem validate_applyEdit {c : Complaint} {body : EditBody}
    (hv : validate c = true) (hp : body.priorityOk) : validate (applyEdit c body) = true := by
  rw [validate_iff] at hv ⊢
  obtain ⟨h1, h2, h3, h4, h5, h6⟩ := hv
  have hne : ∀ (a : Option String) (b : String), b ≠ "" → strOr a b ≠ "" := by
    intro a b hb
    unfold strOr
    cases a with
    | none => exact hb
    | some x =>
      by_cases hx : x = ""
      · simp [hx, hb]
      · simp [hx]
  exact ⟨hne _ _ h1, hne _ _ h2, hne _ _ h3, h4, h5, strOr_mem hp h6⟩

/-- C14 (as stated) fails in its second half: the owner's edit of the pending
complaint 0 that supplies the priority "urgent" does not succeed; the
document fails schema validation, the reply is 500 and nothing is stored. -/
theorem edit_pending_invalid_priority_fails :
    findById storePending 0 = some pendingDoc ∧ pendingDoc.status = "pending" ∧
    pendingDoc.user = alice.id ∧
    editComplaint storePending env0 (.valid 1) 0 { priority := some "urgent" }
      = (storePending, .fail 500 "Server error") := by
  decide

/-- C14 (amended): for every complaint whose status is not `pending` and
every edit request by its owner, the edit is rejected with status 400 and the
store, hence title, description, category and priority, is unchanged; for
every schema-valid complaint whose status is `pending` and every edit request
by its owner whose priority, when supplied, is one of `low`, `medium`, `high`,
the edit succeeds and each of title, description, category and priority is
the supplied value when one is supplied and non-empty, and the previous value
otherwise. -/
theorem edit_by_owner (s : Store) (env : Env) (tok : Token) (id : ObjectId)
    (body : EditBody) (u : User) (c : Complaint)
    (hp : protect s tok = .ok u) (hc : findById s id = some c) (hown : c.user = u.id) :
    (c.status ≠ "pending" →
      editComplaint s env tok id body
        = (s, .fail 400 "Cannot edit complaint - it is no longer in pending status") ∧
      findById (editComplaint s env tok id body).1 id = some c) ∧
    (c.status = "pending" → validate c = true → body.priorityOk →
      ∃ s' doc, editComplaint s env tok id body = (s', .ok doc) ∧ findById s' id = some doc ∧
        SetIfSupplied body.title c.title doc.title ∧
        SetIfSupplied body.description c.description doc.description ∧
        SetIfSupplied body.category c.category doc.category ∧
        SetIfSupplied body.priority c.priority doc.priority) := by
  constructor
  · intro hst
    have h : editComplaint s env tok id body
        = (s, .fail 400 "Cannot edit complaint - it is no longer in pending status") := by
      rw [editComplaint, withUser_ok _ hp]
      simp [updateComplaint, hc, hown, hst]
    rw [h]
    exact ⟨rfl, hc⟩
  · intro hst hv hpr
    have hv' := validate_applyEdit hv hpr
    have h : editComplaint s env tok id body
        = (replaceDoc s (preSave env (applyEdit c body)), .ok (preSave env (applyEdit c body))) := by
      rw [editComplaint, withUser_ok _ hp]
      simp [updateComplaint, hc, hown, hst, save_valid s env _ hv']
    refine ⟨_, _, h, ?_, setIfSupplied_strOr _ _, setIfSupplied_strOr _ _,
      setIfSupplied_strOr _ _, setIfSupplied_strOr _ _⟩
    rw [findById_replaceDoc]
    have hdid : (preSave env (applyEdit c body)).id = id := (findById_id hc : c.id = id)
    simp [hdid, hc]

theorem edit_by_owner_witness :
    protect storePending (.valid 1) = .ok alice ∧
    findById storePending 0 = some pendingDoc ∧ pendingDoc.user = alice.id ∧
    pendingDoc.status = "pending" ∧ validate pendingDoc = true ∧
    (∃ s' doc, editComplaint storePending env0 (.valid 1) 0
          { title := some "Leaky tap", priority := some "high" } = (s', .ok doc) ∧
        findById s' 0 = some doc ∧
        SetIfSupplied (some "Leaky tap") pendingDoc.title doc.title ∧
        SetIfSupplied none pendingDoc.description doc.description ∧
        SetIfSupplied none pendingDoc.category doc.category ∧
        SetIfSupplied (some "high") pendingDoc.priority doc.priority) ∧
    (protect storeResolved (.valid 1) = .ok alice ∧
      findById storeResolved 0 = some resolvedDoc ∧ resolvedDoc.status ≠ "pending" ∧
      editComplaint storeResolved env0 (.valid 1) 0 { title := some "Leaky tap" }
        = (storeResolved, .fail 400 "Cannot edit complaint - it is no longer in pending status")) :=
  ⟨rfl, by decide, by decide, by decide, by decide,
    (edit_by_owner storePending env0 (.valid 1) 0
      { title := some "Leaky tap", priority := some "high" } alice pendingDoc
      rfl (by decide) (by decide)).2 (by decide) (by decide)
      (fun p h => by
        injection h with h
        subst h
        right
        decide),
    rfl, by decide, by decide,
    ((edit_by_owner storeResolved env0 (.valid 1) 0 { title := some "Leaky tap" } alice
      resolvedDoc rfl (by decide) (by decide)).1 (by decide)).1⟩

/-! ## Deleting a complaint -/

/-- The user delete handler has no status check: the owner's delete of an
existing complaint succeeds in every status and removes the complaint. -/
theorem deleteComplaint_by_owner {s : Store} {tok : Token} {id : ObjectId} {u : User}
    {c : Complaint} (hp : protect s tok = .ok u) (hc : findById s id = some c)
    (hown : c.user = u.id) :
    deleteComplaint s tok id = (deleteOne s id, .ok ()) ∧
      findById (deleteComplaint s tok id).1 id = none := by
  have h : deleteComplaint s tok id = (deleteOne s id, .ok ()) := by
    rw [deleteComplaint, withUser_ok _ hp]
    simp [removeComplaint, hc, hown]
  rw [h]
  exact ⟨rfl, by rw [findById_deleteOne]; simp⟩

/-- The user delete handler answers a principal other than the owner with
status 401 and leaves the store as it was. -/
theorem deleteComplaint_by_non_owner {s : Store} {tok : Token} {id : ObjectId} {u : User}
    {c : Complaint} (hp : protect s tok = .ok u) (hc : findById s id = some c)
    (hne : u.id ≠ c.user) :
    deleteComplaint s tok id = (s, .fail 401 "Not authorized") := by
  have hown : ¬ c.user = u.id := fun h => hne h.symm
  rw [deleteComplaint, withUser_ok _ hp]
  simp [removeComplaint, hc, hown]

/-- C15, evaluated at the failing input: the owner's delete request on
complaint 0, whose status is `resolved`, and on the same complaint once
`closed`, is answered with a success and the complaint is gone from the
store, where the specification requires the request to fail and the
complaint to remain. -/
theorem owner_deletes_resolved_complaint :
    (findById storeResolved 0).map (fun c => (c.user, c.status)) = some (1, "resolved") ∧
    (deleteComplaint storeResolved (.valid 1) 0).2.isOk = true ∧
    findById (deleteComplaint storeResolved (.valid 1) 0).1 0 = none ∧
    (findById storeClosed 0).map (fun c => (c.user, c.status)) = some (1, "closed") ∧
    (deleteComplaint storeClosed (.valid 1) 0).2.isOk = true ∧
    findById (deleteComplaint storeClosed (.valid 1) 0).1 0 = none := by
  decide

/-- C16, evaluated at the failing input: Bob's delete request on Alice's
complaint 0 leaves the store unchanged, as required, but is answered with
status 401, the Unauthorized kind, where the specification requires
Forbidden, which is the 403 the edit, view and pay handlers answer in the
same situation. -/
theorem non_owner_delete_answers_401 :
    (findById storePending 0).map (fun c => c.user) = some 1 ∧
    protect storePending (.valid 2) = .ok bob ∧
    deleteComplaint storePending (.valid 2) 0 = (storePending, .fail 401 "Not authorized") ∧
    (deleteComplaint storePending (.valid 2) 0).2.code = 401 ∧
    (editComplaint storePending env0 (.valid 2) 0 {}).2.code = 403 ∧
    (viewComplaint storePending (.valid 2) 0).2.code = 403 ∧
    (pay storePending env0 (.valid 2) 0 {}).2.code = 403 :=
  ⟨by decide, rfl, by decide, by decide, by decide, by decide, by decide⟩

theorem filter_ne_eq_erase (l : List Complaint) (c : Complaint) (hc : c ∈ l)
    (hnd : (l.map (fun d => d.id)).Nodup) :
    l.filter (fun d => d.id != c.id) = l.erase c := by
  induction l with
  | nil => simp at hc
  | cons d l ih =>
    rw [List.map_cons, List.nodup_cons] at hnd
    obtain ⟨hd, hnd⟩ := hnd
    by_cases hdc : d = c
    · subst hdc
      have hall : ∀ e ∈ l, (e.id != d.id) = true := by
        intro e he
        have : e.id ≠ d.id := fun h => hd (List.mem_map.mpr ⟨e, he, h⟩)
        simpa using this
      simp [List.filter_cons, List.filter_eq_self.mpr hall]
    · have hcl : c ∈ l := by
        rcases List.mem_cons.mp hc with h | h
        · exact absurd h.symm hdc
        · exact h
      have hid : d.id ≠ c.id := fun h => hd (List.mem_map.mpr ⟨c, hcl, h.symm⟩)
      have hbeq : (d == c) = false := by simpa using hdc
      simp [List.filter_cons, hid, List.erase_cons, hbeq, ih hcl hnd]

/-- C17: for every existing complaint, whatever its status and owner, the
administrator's delete succeeds; the resulting store has the same users, no
complaint under the deleted identifier, every other identifier resolving as
before, and as complaints the previous ones without those of the deleted
identifier, in the previous order, which is the previous list with exactly
that complaint erased when identifiers are unique. For an identifier that
resolves to no complaint the reply is 404 and the store is unchanged. -/
theorem admin_delete_removes_exactly (s : Store) (tok : Token) (id : ObjectId) (u : User)
    (hp : protect s tok = .ok u) (ha : admin u = true) :
    (∀ c, findById s id = some c →
      (adminDeleteComplaint s tok id).2 = .ok () ∧
      (adminDeleteComplaint s tok id).1.users = s.users ∧
      findById (adminDeleteComplaint s tok id).1 id = none ∧
      (∀ j, j ≠ id → findById (adminDeleteComplaint s tok id).1 j = findById s j) ∧
      (∀ d, d ∈ (adminDeleteComplaint s tok id).1.complaints ↔ d ∈ s.complaints ∧ d.id ≠ id) ∧
      (adminDeleteComplaint s tok id).1.complaints.Sublist s.complaints ∧
      ((s.complaints.map (fun d => d.id)).Nodup →
        (adminDeleteComplaint s tok id).1.complaints = s.complaints.erase c)) ∧
    (findById s id = none →
      adminDeleteComplaint s tok id = (s, .fail 404 "Complaint not found")) := by
  constructor
  · intro c hc
    have h : adminDeleteComplaint s tok id = (deleteOne s id, .ok ()) := by
      rw [adminDeleteComplaint, withAdmin_ok _ hp ha]
      simp [adminRemoveComplaint, hc]
    rw [h]
    refine ⟨rfl, rfl, ?_, ?_, ?_, ?_, ?_⟩
    · rw [findById_deleteOne]; simp
    · intro j hj
      rw [findById_deleteOne]; simp [hj]
    · intro d
      simp [deleteOne, List.mem_filter]
    · exact List.filter_sublist _
    · intro hnd
      have hid : c.id = id := findById_id hc
      subst hid
      exact filter_ne_eq_erase s.complaints c (findById_mem hc) hnd
  · intro hc
    rw [adminDeleteComplaint, withAdmin_ok _ hp ha]
    simp [adminRemoveComplaint, hc]

theorem admin_delete_removes_exactly_witness :
    protect storeThree (.valid 9) = .ok root ∧ admin root = true ∧
    findById storeThree 0 = some resolvedDoc ∧
    (storeThree.complaints.map (fun d => d.id)).Nodup ∧
    (adminDeleteComplaint storeThree (.valid 9) 0).2 = .ok () ∧
    (adminDeleteComplaint storeThree (.valid 9) 0).1.complaints
      = storeThree.complaints.erase resolvedDoc ∧
    (findById storeThree 7 = none ∧
      adminDeleteComplaint storeThree (.valid 9) 7 = (storeThree, .fail 404 "Complaint not found")) :=
  have h := admin_delete_removes_exactly storeThree (.valid 9) 0 root rfl (by decide)
  have h7 := admin_delete_removes_exactly storeThree (.valid 9) 7 root rfl (by decide)
  have h0 := h.1 resolvedDoc (by decide)
  ⟨rfl, by decide, by decide, by decide, h0.1, h0.2.2.2.2.2.2 (by decide),
    by decide, h7.2 (by decide)⟩

/-! ## Listing and viewing complaints -/

theorem newerFirst_sorted (l : List Complaint) : (l.insertionSort newerFirst).Sorted newerFirst := by
  haveI : IsTotal Complaint newerFirst := ⟨fun a b => Nat.le_total b.createdAt a.createdAt⟩
  haveI : IsTrans Complaint newerFirst := ⟨fun _ _ _ hab hbc => Nat.le_trans hbc hab⟩
  exact List.sorted_insertionSort newerFirst l

/-- C18: for every authenticated principal `u` and every store, the user list
operation leaves the store unchanged and returns a list in which every
complaint is owned by `u`, which holds every complaint of the store owned by
`u` (it is a rearrangement of exactly those), ordered by createdAt
descending; the user view operation on an existing complaint that `u` does
not own (its owner's record being in the store) is answered with status 403,
a reply that carries no complaint, and leaves the store unchanged. -/
theorem list_and_view_own_only (s : Store) (tok : Token) (u : User)
    (hp : protect s tok = .ok u) :
    (∃ l, listComplaints s tok = (s, .ok l) ∧
      (∀ c ∈ l, c.user = u.id ∧ c ∈ s.complaints) ∧
      (∀ c ∈ s.complaints, c.user = u.id → c ∈ l) ∧
      l.Perm (ownedBy s u.id) ∧
      l.Pairwise (fun a b => b.createdAt ≤ a.createdAt)) ∧
    (∀ id c owner, findById s id = some c → findUser s c.user = some owner → c.user ≠ u.id →
      viewComplaint s tok id = (s, .fail 403 "Not authorized to view this complaint")) := by
  constructor
  · refine ⟨(ownedBy s u.id).insertionSort newerFirst, ?_, ?_, ?_, ?_, ?_⟩
    · rw [listComplaints, withUser_ok _ hp]
      rfl
    · intro c hc
      have hc' : c ∈ ownedBy s u.id := (List.perm_insertionSort newerFirst _).mem_iff.mp hc
      simp only [ownedBy, List.mem_filter, beq_iff_eq] at hc'
      exact ⟨hc'.2, hc'.1⟩
    · intro c hc hown
      apply (List.perm_insertionSort newerFirst _).mem_iff.mpr
      simp only [ownedBy, List.mem_filter, beq_iff_eq]
      exact ⟨hc, hown⟩
    · exact List.perm_insertionSort newerFirst _
    · exact newerFirst_sorted _
  · intro id c owner hc ho hne
    have hown : ¬ owner.id = u.id := by
      rw [findUser_id ho]; exact hne
    rw [viewComplaint, withUser_ok _ hp]
    simp [fetchComplaint, hc, ho, hown]

theorem list_and_view_own_only_witness :
    protect storeThree (.valid 1) = .ok alice ∧
    (listComplaints storeThree (.valid 1)).2.isOk = true ∧
    (match (listComplaints storeThree (.valid 1)).2 with
      | .ok l => l.map (fun c => (c.id, c.user, c.createdAt))
      | .fail _ _ => []) = [(2, 1, 3000), (0, 1, 1000)] ∧
    (∃ l, listComplaints storeThree (.valid 1) = (storeThree, .ok l) ∧
      (∀ c ∈ l, c.user = alice.id ∧ c ∈ storeThree.complaints) ∧
      (∀ c ∈ storeThree.complaints, c.user = alice.id → c ∈ l) ∧
      l.Perm (ownedBy storeThree alice.id) ∧
      l.Pairwise (fun a b => b.createdAt ≤ a.createdAt)) ∧
    viewComplaint storeThree (.valid 1) 1
      = (storeThree, .fail 403 "Not authorized to view this complaint") :=
  have h := list_and_view_own_only storeThree (.valid 1) alice rfl
  ⟨rfl, by decide, by decide, h.1,
    h.2 1 { pendingDoc with id := 1, user := 2, createdAt := 2000, updatedAt := 2000,
                            doorNumber := some "B-202" } bob
      (by decide) (by decide) (by decide)⟩

/-! ## Creating a complaint -/

/-- C19: for every authenticated principal `u` and every body sent to the
create operation, whatever further keys it carries (status, user, payment
fields), a complaint that is created is appended to the store and has owner
`u`, status `pending`, paymentStatus `pending`, paymentAmount 0, no payment
record, priority equal to the supplied non-empty priority or `medium` when
none is supplied, and doorNumber equal to the supplied non-empty door number
or else the owner's stored door number; and a complaint is created whenever
title, description and category are supplied non-empty and the priority,
when supplied, is one of `low`, `medium`, `high`. -/
theorem create_sets_owner_and_defaults (s : Store) (env : Env) (tok : Token)
    (raw : RawCreateBody) (u : User) (hp : protect s tok = .ok u) :
    (∀ s' doc, createComplaint s env tok raw.destructure = (s', .ok doc) →
      s'.complaints = s.complaints ++ [doc] ∧ s'.users = s.users ∧
      doc.user = u.id ∧ doc.status = "pending" ∧ doc.paymentStatus = "pending" ∧
      doc.paymentAmount = 0 ∧ doc.paymentDetails = none ∧ doc.paymentDate = none ∧
      SetIfSupplied raw.priority "medium" doc.priority ∧
      (∀ d, raw.doorNumber = some d → d ≠ "" → doc.doorNumber = some d) ∧
      ((raw.doorNumber = none ∨ raw.doorNumber = some "") → doc.doorNumber = u.doorNumber)) ∧
    ((∃ t, raw.title = some t ∧ t ≠ "") → (∃ t, raw.description = some t ∧ t ≠ "") →
      (∃ t, raw.category = some t ∧ t ≠ "") →
      (∀ p, raw.priority = some p → p = "" ∨ p ∈ priorityEnum) →
      ∃ s' doc, createComplaint s env tok raw.destructure = (s', .ok doc)) := by
  have hu : findUser s u.id = some u := protect_findUser hp
  constructor
  · intro s' doc h
    rcases createComplaint_cases s env tok raw.destructure with ⟨_, hfail⟩ | ⟨v, hv, _, hok⟩
    · rw [h] at hfail
      have hft : true = false := hfail
      exact absurd hft (by decide)
    · rw [hp] at hv
      injection hv with hv
      subst hv
      rw [h] at hok
      injection hok with hs hr
      injection hr with hdoc
      subst hs hdoc
      refine ⟨rfl, rfl, rfl, rfl, rfl, rfl, rfl, rfl, setIfSupplied_strOr _ _, ?_, ?_⟩
      · intro d hd hne
        show (newComplaint s env u raw.destructure).doorNumber = some d
        simp [newComplaint, RawCreateBody.destructure, hd, hne]
      · intro hd
        show (newComplaint s env u raw.destructure).doorNumber = u.doorNumber
        rcases hd with hd | hd <;> simp [newComplaint, RawCreateBody.destructure, hd, hu]
  · intro ⟨t, ht, htne⟩ ⟨d, hd, hdne⟩ ⟨g, hg, hgne⟩ hpr
    have hv : validate (newComplaint s env u raw.destructure) = true := by
      rw [validate_iff]
      have hs : ("pending" : String) ∈ statusEnum := by decide
      have hps : ("pending" : String) ∈ paymentStatusEnum := by decide
      have hm : ("medium" : String) ∈ priorityEnum := by decide
      refine ⟨?_, ?_, ?_, hs, hps, strOr_mem hpr hm⟩
      · show (raw.title.getD "") ≠ ""
        rw [ht]; exact htne
      · show (raw.description.getD "") ≠ ""
        rw [hd]; exact hdne
      · show (raw.category.getD "") ≠ ""
        rw [hg]; exact hgne
    rcases createComplaint_cases s env tok raw.destructure with ⟨_, hfail⟩ | ⟨v, _, _, hok⟩
    · have hok : (createComplaint s env tok raw.destructure).2.isOk = true := by
        rw [createComplaint, withUser_ok _ hp]
        simp [submitComplaint, insert, hv, Reply.isOk]
      rw [hfail] at hok
      exact absurd hok (by decide)
    · exact ⟨_, _, hok⟩

theorem create_sets_owner_and_defaults_witness :
    protect store0 (.valid 1) = .ok alice ∧
    (∃ s' doc, createComplaint store0 env0 (.valid 1)
        (RawCreateBody.destructure
          { title := some "Leaky faucet", description := some "Kitchen tap drips",
            category := some "Plumbing", status := some "closed", user := some 2,
            paymentAmount := some 1, paymentStatus := some "completed" }) = (s', .ok doc)) ∧
    createComplaint store0 env0 (.valid 1)
        (RawCreateBody.destructure
          { title := some "Leaky faucet", description := some "Kitchen tap drips",
            category := some "Plumbing", status := some "closed", user := some 2,
            paymentAmount := some 1, paymentStatus := some "completed" })
      = (storePending, .ok pendingDoc) ∧
    pendingDoc.user = alice.id ∧ pendingDoc.status = "pending" ∧
    pendingDoc.paymentStatus = "pending" ∧ pendingDoc.paymentAmount = 0 ∧
    pendingDoc.priority = "medium" ∧ pendingDoc.doorNumber = alice.doorNumber :=
  have h := create_sets_owner_and_defaults store0 env0 (.valid 1)
    { title := some "Leaky faucet", description := some "Kitchen tap drips",
      category := some "Plumbing", status := some "closed", user := some 2,
      paymentAmount := some 1, paymentStatus := some "completed" } alice rfl
  have hc : createComplaint store0 env0 (.valid 1)
      (RawCreateBody.destructure
        { title := some "Leaky faucet", description := some "Kitchen tap drips",
          category := some "Plumbing", status := some "closed", user := some 2,
          paymentAmount := some 1, paymentStatus := some "completed" })
      = (storePending, .ok pendingDoc) := by decide
  have hf := h.1 storePending pendingDoc hc
  ⟨rfl, h.2 ⟨_, rfl, by decide⟩ ⟨_, rfl, by decide⟩ ⟨_, rfl, by decide⟩ (fun p hp => by cases hp),
    hc, hf.2.2.1, hf.2.2.2.1, hf.2.2.2.2.1, hf.2.2.2.2.2.1,
    hf.2.2.2.2.2.2.2.2.1.2 (Or.inl rfl), hf.2.2.2.2.2.2.2.2.2.2 (Or.inl rfl)⟩

/-! ## Deleting a user -/

theorem deleteMany_eq (l : List Complaint) (uid : ObjectId) :
    deleteMany l uid
      = (l.filter (fun c => c.user != uid), (l.filter (fun c => c.user == uid)).length) := by
  induction l with
  | nil => rfl
  | cons c l ih =>
    by_cases hc : c.user = uid
    · simp [deleteMany, ih, hc, List.filter_cons]
    · simp [deleteMany, ih, hc, List.filter_cons]

/-- A lookup that resolves to a document the filter keeps resolves to it
after filtering. -/
theorem find_filter_of_pass {α : Type} (l : List α) (p q : α → Bool) {c : α}
    (h : l.find? p = some c) (hq : q c = true) : (l.filter q).find? p = some c := by
  induction l with
  | nil => simp at h
  | cons d l ih =>
    by_cases hpd : p d = true
    · have hdc : d = c := by simpa [List.find?_cons, hpd] using h
      subst hdc
      simp [List.filter_cons, hq, List.find?_cons, hpd]
    · have hpd' : p d = false := by simpa using hpd
      have hl : l.find? p = some c := by simpa [List.find?_cons, hpd'] using h
      by_cases hqd : q d = true
      · simp [List.filter_cons, hqd, List.find?_cons, hpd', ih hl]
      · simp [List.filter_cons, hqd, ih hl]

theorem find_filter_ne (l : List User) (uid : ObjectId) :
    (l.filter (fun u => u.id != uid)).find? (fun u => u.id == uid) = none := by
  induction l with
  | nil => rfl
  | cons d l ih =>
    by_cases hd : d.id = uid
    · simp [List.filter_cons, hd, ih]
    · simp [List.filter_cons, hd, List.find?_cons, ih]

/-- C20: for every store and every existing user `target` who owns exactly
`N` complaints, the administrator's deleteUser succeeds and reports
complaintsDeleted equal to `N`; in the resulting store the user is absent,
no complaint owned by the user remains, the complaints are the previous ones
owned by other users, in the previous order, every identifier that resolved
to a complaint of another user resolves to the same complaint, and every
other user record is still found. -/
theorem deleteUser_cascades (s : Store) (tok : Token) (uid : ObjectId) (u target : User)
    (N : Nat) (hp : protect s tok = .ok u) (ha : admin u = true)
    (ht : findUser s uid = some target) (hN : (ownedBy s uid).length = N) :
    ∃ s', deleteUser s tok uid = (s', .ok N) ∧
      findUser s' uid = none ∧
      (∀ c ∈ s'.complaints, c.user ≠ uid) ∧
      s'.complaints = s.complaints.filter (fun c => c.user != uid) ∧
      s'.complaints.length + N = s.complaints.length ∧
      (∀ j c, findById s j = some c → c.user ≠ uid → findById s' j = some c) ∧
      (∀ j v, findUser s j = some v → j ≠ uid → findUser s' j = some v) := by
  have h : deleteUser s tok uid
      = (⟨s.users.filter (fun v => v.id != uid),
          s.complaints.filter (fun c => c.user != uid), s.nextId⟩, .ok N) := by
    rw [deleteUser, withAdmin_ok _ hp ha]
    simp only [removeUser, ht, deleteMany_eq]
    rw [← hN]
    rfl
  refine ⟨_, h, ?_, ?_, rfl, ?_, ?_, ?_⟩
  · exact find_filter_ne s.users uid
  · intro c hc
    simp only [List.mem_filter, bne_iff_ne, ne_eq] at hc
    exact hc.2
  · rw [← hN]
    show (s.complaints.filter (fun c => c.user != uid)).length
        + (s.complaints.filter (fun c => c.user == uid)).length = s.complaints.length
    induction s.complaints with
    | nil => rfl
    | cons c l ih =>
      by_cases hc : c.user = uid
      · simp [List.filter_cons, hc]
        simp [hc] at ih
        omega
      · simp [List.filter_cons, hc]
        simp [hc] at ih
        omega
  · intro j c hc hne
    exact find_filter_of_pass s.complaints _ _ hc (by simpa using hne)
  · intro j v hv hne
    have hvid : v.id = j := findUser_id hv
    exact find_filter_of_pass s.users _ _ hv (by simpa [hvid] using hne)

theorem deleteUser_cascades_witness :
    protect storeThree (.valid 9) = .ok root ∧ admin root = true ∧
    findUser storeThree 1 = some alice ∧ (ownedBy storeThree 1).length = 2 ∧
    storeThree.complaints.length = 3 ∧
    ∃ s', deleteUser storeThree (.valid 9) 1 = (s', .ok 2) ∧
      findUser s' 1 = none ∧
      (∀ c ∈ s'.complaints, c.user ≠ 1) ∧
      s'.complaints = storeThree.complaints.filter (fun c => c.user != 1) ∧
      s'.complaints.length + 2 = storeThree.complaints.length ∧
      (∀ j c, findById storeThree j = some c → c.user ≠ 1 → findById s' j = some c) ∧
      (∀ j v, findUser storeThree j = some v → j ≠ 1 → findUser s' j = some v) :=
  ⟨rfl, by decide, by decide, by decide, by decide,
    deleteUser_cascades storeThree (.valid 9) 1 root alice 2 rfl (by decide) (by decide)
      (by decide)⟩

/-! ## The cascading delete under storage failures -/

theorem removeUserWith_noFaults (s : Store) (uid : ObjectId) :
    removeUserWith {} s uid = removeUser s uid := by
  unfold removeUserWith removeUser
  cases findUser s uid <;> simp

/-- C21 (as stated) fails: when `user.deleteOne` throws after the bulk deletion
of Alice's two complaints, deleteUser reports an error (500), Alice's record
is still present, and her complaints are gone. -/
theorem deleteUser_leaves_complaints_deleted :
    (ownedBy storeThree 1).length = 2 ∧
    (deleteUserWith { deleteOne := true } storeThree (.valid 9) 1).2 = .fail 500 "Server Error" ∧
    findUser (deleteUserWith { deleteOne := true } storeThree (.valid 9) 1).1 1 = some alice ∧
    ownedBy (deleteUserWith { deleteOne := true } storeThree (.valid 9) 1).1 1 = [] := by
  decide

/-- C21 (amended): modelling each storage call of deleteUser as able to fail,
whenever deleteUser reports an error every user record is still present and
unchanged; the store is unchanged altogether unless the failing call is the
user deletion: if the lookup or the bulk complaint deletion fails, or the
request is denied or names no user, nothing is changed, whereas if the user
deletion fails after the bulk deletion, the user's complaints are left
deleted and the other complaints are as before. Without failures the
operation is the ordinary deleteUser. -/
theorem deleteUser_failure_modes (f : Faults) (s : Store) (tok : Token) (uid : ObjectId)
    (herr : (deleteUserWith f s tok uid).2.isOk = false) :
    (deleteUserWith f s tok uid).1.users = s.users ∧
    (f.deleteOne = false ∨ f.findById = true ∨ f.deleteMany = true →
      (deleteUserWith f s tok uid).1 = s) ∧
    ((deleteUserWith f s tok uid).1 = s ∨
      (f.deleteOne = true ∧ f.deleteMany = false ∧
        (deleteUserWith f s tok uid).1.complaints
          = s.complaints.filter (fun c => c.user != uid))) ∧
    deleteUserWith {} s tok uid = deleteUser s tok uid := by
  have hlast : deleteUserWith {} s tok uid = deleteUser s tok uid := by
    rw [deleteUserWith, deleteUser, removeUserWith_noFaults]
  rcases withAdmin_cases s tok (removeUserWith f s uid) with ⟨msg, h⟩ | ⟨u, _, _, h⟩
  · rw [deleteUserWith, h]
    exact ⟨rfl, fun _ => rfl, Or.inl rfl, hlast⟩
  · rw [deleteUserWith, h] at herr ⊢
    unfold removeUserWith at herr ⊢
    cases hf : f.findById with
    | true => simp [hf] at herr ⊢; exact hlast
    | false =>
      cases hu : findUser s uid with
      | none => simp [hf, hu] at herr ⊢; exact hlast
      | some v =>
        cases hm : f.deleteMany with
        | true => simp [hf, hu, hm] at herr ⊢; exact hlast
        | false =>
          cases hd : f.deleteOne with
          | true =>
            simp [hf, hu, hm, hd, deleteMany_eq] at herr ⊢
            exact hlast
          | false =>
            simp [hf, hu, hm, hd, Reply.isOk] at herr

theorem deleteUser_failure_modes_witness :
    (deleteUserWith { deleteMany := true } storeThree (.valid 9) 1).2.isOk = false ∧
    (deleteUserWith { deleteMany := true } storeThree (.valid 9) 1).1 = storeThree ∧
    (deleteUserWith { deleteOne := true } storeThree (.valid 9) 1).2.isOk = false ∧
    (deleteUserWith { deleteOne := true } storeThree (.valid 9) 1).1.users = storeThree.users :=
  have h1 := deleteUser_failure_modes { deleteMany := true } storeThree (.valid 9) 1 (by decide)
  have h2 := deleteUser_failure_modes { deleteOne := true } storeThree (.valid 9) 1 (by decide)
  ⟨by decide, h1.2.1 (Or.inl rfl), by decide, h2.1⟩

/-! ## Repeating a status update -/

theorem strOr_idem (a : Option String) (b : String) : strOr a (strOr a b) = strOr a b := by
  unfold strOr
  cases a with
  | none => rfl
  | some x => by_cases hx : x = "" <;> simp [hx]

theorem applyStatusBody_preSave (env : Env) (c : Complaint) (body : StatusBody) :
    applyStatusBody (preSave env c) body = preSave env (applyStatusBody c body) := by
  unfold applyStatusBody preSave
  cases body.paymentAmount <;> cases body.paymentStatus <;> simp <;> split <;> rfl

theorem applyStatusBody_idem (c : Complaint) (body : StatusBody) :
    applyStatusBody (applyStatusBody c body) body = applyStatusBody c body := by
  unfold applyStatusBody
  cases hs : body.status <;> cases ha : body.assignedTo <;> cases body.paymentAmount <;>
    cases hp : body.paymentStatus <;> simp [strOr] <;> (repeat' split) <;> simp_all

theorem withoutStamp_preSave (env : Env) (c : Complaint) :
    (preSave env c).withoutStamp = c.withoutStamp := rfl

theorem protect_replaceDoc (s : Store) (doc : Complaint) (tok : Token) :
    protect (replaceDoc s doc) tok = protect s tok := by
  cases tok <;> rfl

/-- C22: setStatus is idempotent. For every store, token, complaint id and
request body, issuing the request a second time leaves every complaint as it
was after the first time, apart from `updatedAt`, leaves the users as they
were, and is answered with a success exactly when the first one was. -/
theorem setStatus_idempotent (s : Store) (env1 env2 : Env) (tok : Token) (id : ObjectId)
    (body : StatusBody) :
    (∀ j, (findById (setStatus (setStatus s env1 tok id body).1 env2 tok id body).1 j).map
          Complaint.withoutStamp
        = (findById (setStatus s env1 tok id body).1 j).map Complaint.withoutStamp) ∧
    (setStatus (setStatus s env1 tok id body).1 env2 tok id body).1.users
      = (setStatus s env1 tok id body).1.users ∧
    (setStatus (setStatus s env1 tok id body).1 env2 tok id body).2.isOk
      = (setStatus s env1 tok id body).2.isOk := by
  rcases setStatus_cases s env1 tok id body with ⟨h1, hok1⟩ | ⟨u, c, hp, ha, hc, hv, h1⟩
  · rw [h1, hok1]
    rcases setStatus_cases s env2 tok id body with ⟨h2, hok2⟩ | ⟨u, c, hp, ha, hc, hv, _⟩
    · rw [h2, hok2]
      exact ⟨fun _ => rfl, rfl, rfl⟩
    · have hacc := (setStatus_accepts env1 hp ha hc hv).1
      rw [hacc] at hok1
      have hft : true = false := hok1
      exact absurd hft (by decide)
  · have hc1 := (setStatus_accepts env1 hp ha hc hv).2
    have hp1 : protect (replaceDoc s (preSave env1 (applyStatusBody c body))) tok = .ok u := by
      rw [protect_replaceDoc]; exact hp
    have happ : applyStatusBody (preSave env1 (applyStatusBody c body)) body
        = preSave env1 (applyStatusBody c body) := by
      rw [applyStatusBody_preSave, applyStatusBody_idem]
    have hv1 : validate (applyStatusBody (preSave env1 (applyStatusBody c body)) body) = true := by
      rw [happ]; exact hv
    obtain ⟨h2, _⟩ := setStatus_accepts env2 hp1 ha hc1 hv1
    rw [h1, h2, happ]
    refine ⟨?_, rfl, rfl⟩
    intro j
    rw [findById_replaceDoc]
    have hdid : (preSave env2 (preSave env1 (applyStatusBody c body))).id = id := by
      show (applyStatusBody c body).id = id
      rw [(applyStatusBody_frame c body).1]; exact findById_id hc
    rw [hdid]
    by_cases hj : j = id
    · subst hj
      rw [if_pos rfl, hc1]
      rfl
    · rw [if_neg hj]

/-! ## Admin comments -/

/-- The document the admin update stores does not depend on the
`adminComments` of the request. -/
theorem applyStatusBody_adminComments (c : Complaint) (body : StatusBody) (a : Option String) :
    applyStatusBody c { body with adminComments := a } = applyStatusBody c body := rfl

/-- C23, evaluated at the failing input: the administrator's request on the
pending complaint 0 that supplies `adminComments` is accepted, and the store
and the returned complaint are exactly those of the same request without
`adminComments`: the comment is neither persisted nor returned, where the
specification requires the complaint to carry it. A request that supplies no
status does leave the status as it was. -/
theorem setStatus_drops_adminComments :
    (setStatus storePending env0 (.valid 9) 0
        { status := some "in-progress", adminComments := some "Plumber booked" }).2.isOk = true ∧
    setStatus storePending env0 (.valid 9) 0
        { status := some "in-progress", adminComments := some "Plumber booked" }
      = setStatus storePending env0 (.valid 9) 0 { status := some "in-progress" } ∧
    (findById (setStatus storePending env0 (.valid 9) 0
        { adminComments := some "Plumber booked" }).1 0).map (fun c => c.status)
      = (findById storePending 0).map (fun c => c.status) := by
  decide

/-! ## The status enum -/

/-- C24: in every store reachable from an empty complaint collection by
create, edit, setStatus and pay requests (and deletes), the status of every
complaint is one of `pending`, `in-progress`, `resolved`, `rejected`,
`closed`; a setStatus request whose status is any other non-empty string
leaves the store, hence the stored complaint, unchanged and is not answered
with a success: reaching an existing complaint from an administrator, it
fails schema validation and is answered with status 500. -/
theorem status_always_in_enum :
    (∀ s, Reachable s → ∀ c ∈ s.complaints, c.status ∈ statusEnum) ∧
    (∀ (s : Store) (env : Env) (tok : Token) (id : ObjectId) (body : StatusBody) (t : String),
      body.status = some t → t ≠ "" → t ∉ statusEnum →
      (setStatus s env tok id body).1 = s ∧ (setStatus s env tok id body).2.isOk = false ∧
      (∀ u c, protect s tok = .ok u → admin u = true → findById s id = some c →
        setStatus s env tok id body = (s, .fail 500 "Server Error"))) := by
  constructor
  · intro s hs c hc
    have hv := (reachable_wellFormed s hs c hc).1
    rw [validate_iff] at hv
    exact hv.2.2.2.1
  · intro s env tok id body t hb ht hte
    have hinv : ∀ c, validate (applyStatusBody c body) = false := by
      intro c
      cases hv : validate (applyStatusBody c body) with
      | false => rfl
      | true =>
        rw [validate_iff, applyStatusBody_status, hb, strOr_some ht] at hv
        exact absurd hv.2.2.2.1 hte
    refine ⟨?_, ?_, ?_⟩
    · rcases setStatus_cases s env tok id body with ⟨h, _⟩ | ⟨u, c, _, _, _, hv, _⟩
      · exact h
      · rw [hinv c] at hv; exact absurd hv (by decide)
    · rcases setStatus_cases s env tok id body with ⟨_, h⟩ | ⟨u, c, _, _, _, hv, _⟩
      · exact h
      · rw [hinv c] at hv; exact absurd hv (by decide)
    · intro u c hp ha hc
      rw [setStatus, withAdmin_ok _ hp ha, updateComplaintStatus]
      simp [hc, save_invalid s env _ (hinv c)]

theorem status_always_in_enum_witness :
    Reachable storeClosed ∧ (∀ c ∈ storeClosed.complaints, c.status ∈ statusEnum) ∧
    setStatus storeClosed env0 (.valid 9) 0 { status := some "archived" }
      = (storeClosed, .fail 500 "Server Error") :=
  have hr : Reachable storeClosed :=
    ReachableBy.step env0 _
      (ReachableBy.step env0 _ (ReachableBy.step env0 _ (ReachableBy.init _ _) trivial) trivial)
      trivial
  ⟨hr, status_always_in_enum.1 storeClosed hr,
    (status_always_in_enum.2 storeClosed env0 (.valid 9) 0 { status := some "archived" }
      "archived" rfl (by decide) (by decide)).2.2 root closedDoc rfl (by decide) (by decide)⟩

/-! ## Resetting a password -/

/-- Looking up `j` after the user records with identifier `i` were replaced by `u`. -/
theorem find_replaceUser (l : List User) (i j : ObjectId) (u : User) (hu : u.id = i) :
    (l.map (fun v => if v.id = i then u else v)).find? (fun v => v.id == j)
      = if j = i then (l.find? (fun v => v.id == j)).map (fun _ => u)
        else l.find? (fun v => v.id == j) := by
  induction l with
  | nil => simp
  | cons d l ih =>
    simp only [List.map_cons, List.find?_cons]
    by_cases hd : d.id = i
    · by_cases hj : j = i
      · subst hj
        simp [hd, hu]
      · have hne : (i == j) = false := by simpa using fun h : i = j => hj h.symm
        simp [hd, hu, hj, hne, ih]
    · by_cases hj : j = i
      · subst hj
        have hne : (d.id == j) = false := by simpa using hd
        simp [hd, hne, ih]
      · simp [hd, hj, ih]

theorem findUser_replaceUser (s : Store) (u : User) (j : ObjectId) :
    findUser (replaceUser s u) j
      = if j = u.id then (findUser s j).map (fun _ => u) else findUser s j := by
  simpa [findUser, replaceUser] using find_replaceUser s.users u.id j u rfl

/-- C25: for an administrator's resetPassword request, the reply is the
validation error 400 if and only if newPassword is missing, empty or shorter
than 6 characters, and then the store, hence every user record, is unchanged;
the check precedes the user lookup, so a too-short password for an id that
names no user is answered 400 and not 404; a password of exactly 6
characters for an existing user is accepted and the user's stored password
becomes its hash, every other user being as before. -/
theorem resetPassword_length_check (hash : String → String) (s : Store) (tok : Token)
    (uid : ObjectId) (body : ResetBody) (u : User)
    (hp : protect s tok = .ok u) (ha : admin u = true) :
    ((resetPassword hash s tok uid body).2.code = 400 ↔
      (body.newPassword = none ∨ body.newPassword = some "" ∨
        ∃ pw, body.newPassword = some pw ∧ pw.length < 6)) ∧
    ((resetPassword hash s tok uid body).2.code = 400 →
      (resetPassword hash s tok uid body).1 = s) ∧
    (findUser s uid = none → (∃ pw, body.newPassword = some pw ∧ pw.length < 6) →
      (resetPassword hash s tok uid body).2.code = 400) ∧
    (∀ pw v, body.newPassword = some pw → pw.length = 6 → findUser s uid = some v →
      resetPassword hash s tok uid body
        = (replaceUser s { v with password := hash pw }, .ok ()) ∧
      findUser (resetPassword hash s tok uid body).1 uid = some { v with password := hash pw } ∧
      (∀ j, j ≠ uid → findUser (resetPassword hash s tok uid body).1 j = findUser s j)) := by
  have hrw : resetPassword hash s tok uid body = resetUserPassword hash s uid body := by
    rw [resetPassword, withAdmin_ok _ hp ha]
  rw [hrw]
  have hempty : ("" : String).length < 6 := by decide
  have hbad : ∀ pw : String, (pw = "" ∨ pw.length < 6) ↔ pw.length < 6 := by
    intro pw
    constructor
    · rintro (h | h)
      · rw [h]; exact hempty
      · exact h
    · exact Or.inr
  refine ⟨?_, ?_, ?_, ?_⟩
  · cases hb : body.newPassword with
    | none => simp [resetUserPassword, hb, Reply.code]
    | some pw =>
      by_cases hlen : pw.length < 6
      · have : pw = "" ∨ pw.length < 6 := Or.inr hlen
        simp [resetUserPassword, hb, this, Reply.code, hlen]
      · have hno : ¬ (pw = "" ∨ pw.length < 6) := fun h => hlen ((hbad pw).mp h)
        have hne : pw ≠ "" := fun h => hno (Or.inl h)
        cases hu : findUser s uid <;>
          simp [resetUserPassword, hb, hno, hu, Reply.code, hlen, hne]
  · cases hb : body.newPassword with
    | none => simp [resetUserPassword, hb]
    | some pw =>
      by_cases hlen : pw.length < 6
      · have : pw = "" ∨ pw.length < 6 := Or.inr hlen
        simp [resetUserPassword, hb, this]
      · have hno : ¬ (pw = "" ∨ pw.length < 6) := fun h => hlen ((hbad pw).mp h)
        cases hu : findUser s uid <;> simp [resetUserPassword, hb, hno, hu, Reply.code]
  · rintro _ ⟨pw, hb, hlen⟩
    have : pw = "" ∨ pw.length < 6 := Or.inr hlen
    simp [resetUserPassword, hb, this, Reply.code]
  · intro pw v hb hlen hv
    have hno : ¬ (pw = "" ∨ pw.length < 6) := by
      intro h
      have := (hbad pw).mp h
      omega
    have hres : resetUserPassword hash s uid body
        = (replaceUser s { v with password := hash pw }, .ok ()) := by
      simp [resetUserPassword, hb, hno, hv]
    rw [hres]
    have hvid : v.id = uid := findUser_id hv
    have huid : ({ v with password := hash pw } : User).id = uid := hvid
    refine ⟨rfl, ?_, ?_⟩
    · rw [findUser_replaceUser, huid]
      simp [hv]
    · intro j hj
      rw [findUser_replaceUser, huid]
      simp [hj]

theorem resetPassword_length_check_witness :
    protect store0 (.valid 9) = .ok root ∧ admin root = true ∧
    (resetPassword sampleModel.hash store0 (.valid 9) 77 { newPassword := some "abc" }).2.code
      = 400 ∧
    findUser store0 77 = none ∧
    resetPassword sampleModel.hash store0 (.valid 9) 1 { newPassword := some "abcdef" }
      = (replaceUser store0 { alice with password := sampleModel.hash "abcdef" }, .ok ()) ∧
    findUser (resetPassword sampleModel.hash store0 (.valid 9) 1
        { newPassword := some "abcdef" }).1 1
      = some { alice with password := "hashed:abcdef" } :=
  have h77 := resetPassword_length_check sampleModel.hash store0 (.valid 9) 77
    { newPassword := some "abc" } root rfl (by decide)
  have h1 := resetPassword_length_check sampleModel.hash store0 (.valid 9) 1
    { newPassword := some "abcdef" } root rfl (by decide)
  ⟨rfl, by decide, h77.2.2.1 (by decide) ⟨"abc", rfl, by decide⟩, by decide,
    (h1.2.2.2 "abcdef" alice rfl (by decide) (by decide)).1,
    (h1.2.2.2 "abcdef" alice rfl (by decide) (by decide)).2.1⟩

/-! ## Registration -/

/-- The account a successful register call stores. -/
theorem register_cases (m : UserModel) (s : Store) (body : RegisterBody) :
    ((register m s body).1 = s ∧ (register m s body).2.isOk = false ∧
      ((register m s body).2.code = 400 ∨ (register m s body).2.code = 500)) ∨
    (findByEmail s body.email = none ∧
      (body.email ≠ "admin@gmail.com" → strOr body.doorNumber "" ≠ "" →
        findByDoor s (strOr body.doorNumber "") = none) ∧
      (userRole body = "user" → strOr body.doorNumber "" ≠ "") ∧
      m.valid (newUser s body) = true ∧
      register m s body
        = (⟨s.users ++ [{ newUser s body with password := m.hash body.password }],
            s.complaints, s.nextId + 1⟩,
           .ok (authReply { newUser s body with password := m.hash body.password }))) := by
  unfold register
  cases he : findByEmail s body.email with
  | some v => left; simp [Reply.isOk, Reply.code]
  | none =>
    by_cases h1 : body.email ≠ "admin@gmail.com" ∧ strOr body.doorNumber "" ≠ "" ∧
        (findByDoor s (strOr body.doorNumber "")).isSome
    · left; simp [h1, Reply.isOk, Reply.code]
    · by_cases h2 : userRole body = "user" ∧ strOr body.doorNumber "" = ""
      · left; simp [h1, h2, Reply.isOk, Reply.code]
      · cases hv : m.valid (newUser s body) with
        | false => left; simp [h1, h2, hv, Reply.isOk, Reply.code]
        | true =>
          right
          refine ⟨rfl, ?_, ?_, rfl, by simp [h1, h2, hv]⟩
          · intro ha hd
            cases hf : findByDoor s (strOr body.doorNumber "") with
            | none => rfl
            | some w => exact absurd ⟨ha, hd, by rw [hf]; rfl⟩ h1
          · intro hr hd
            exact h2 ⟨hr, hd⟩

theorem strOr_empty_of_absent {a : Option String} (h : a = none ∨ a = some "") :
    strOr a "" = "" := by
  rcases h with h | h <;> simp [strOr, h]

/-- C26: for every registration request that would create an account with
role `user` and whose doorNumber is missing or empty, register is answered
with status 400 and the store is unchanged, so no account is created; every
account with role `user` that register creates has a non-empty doorNumber,
the one of the request. -/
theorem register_requires_door (m : UserModel) (s : Store) (body : RegisterBody) :
    (userRole body = "user" → (body.doorNumber = none ∨ body.doorNumber = some "") →
      (register m s body).2.code = 400 ∧ (register m s body).1 = s) ∧
    (∀ s' r, register m s body = (s', .ok r) →
      ∃ u, s'.users = s.users ++ [u] ∧
        (u.role = "user" → ∃ d, u.doorNumber = some d ∧ d ≠ "" ∧ body.doorNumber = some d)) := by
  constructor
  · intro hr hd
    have hd0 := strOr_empty_of_absent hd
    unfold register
    cases he : findByEmail s body.email with
    | some v => simp [Reply.code]
    | none => simp [hd0, hr, Reply.code]
  · intro s' r h
    rcases register_cases m s body with ⟨_, hfail, _⟩ | ⟨_, _, hdoor, _, hok⟩
    · rw [h] at hfail
      have hft : true = false := hfail
      exact absurd hft (by decide)
    · rw [h] at hok
      injection hok with hs _
      subst hs
      refine ⟨_, rfl, ?_⟩
      intro hrole
      have hrole' : userRole body = "user" := hrole
      have hne := hdoor hrole'
      refine ⟨strOr body.doorNumber "", ?_, hne, ?_⟩
      · show (if userRole body = "user" then some (strOr body.doorNumber "") else none) = _
        rw [if_pos hrole']
      · cases hb : body.doorNumber with
        | none => rw [hb] at hne; exact absurd rfl hne
        | some d =>
          by_cases hd : d = ""
          · rw [hb, hd] at hne; exact absurd rfl hne
          · simp [strOr, hd]

theorem register_requires_door_witness :
    userRole { name := "Dan", email := "dan@example.com", password := "secret1" } = "user" ∧
    (register sampleModel storeResidents
        { name := "Dan", email := "dan@example.com", password := "secret1" }).2.code = 400 ∧
    (register sampleModel storeResidents
        { name := "Dan", email := "dan@example.com", password := "secret1" }).1 = storeResidents ∧
    (register sampleModel storeResidents
        { name := "Carol", email := "carol@example.com", password := "secret1",
          doorNumber := some "C-303" }).2.isOk = true :=
  have h := (register_requires_door sampleModel storeResidents
    { name := "Dan", email := "dan@example.com", password := "secret1" }).1
    (by decide) (Or.inl rfl)
  ⟨by decide, h.1, h.2, by decide⟩

/-- C30: the role of an account created by register is a function of the
request alone: it is `admin` when the email is exactly `admin@gmail.com`,
otherwise the role field of the body when that is non-empty, otherwise `user`
(so `user` whenever the email is not `admin@gmail.com` and the body carries
no role), whatever the store and the user model; the token of the reply
carries the id of the created account and a role equal to the stored role.
An account is created whenever the email is new, the door number (required
for role `user`) is new, and the record passes the model's validation. -/
theorem register_role (m : UserModel) (s : Store) (body : RegisterBody) :
    (∀ s' r, register m s body = (s', .ok r) →
      ∃ u, s'.users = s.users ++ [u] ∧
        (body.email = "admin@gmail.com" → u.role = "admin") ∧
        (body.email ≠ "admin@gmail.com" → ∀ t, body.role = some t → t ≠ "" → u.role = t) ∧
        (body.email ≠ "admin@gmail.com" → (body.role = none ∨ body.role = some "") →
          u.role = "user") ∧
        r.tokenRole = u.role ∧ r.tokenId = .account u.id ∧ r.user.role = u.role ∧
        (∀ (m2 : UserModel) (s2 s2' : Store) (r2 : AuthReply),
          register m2 s2 body = (s2', .ok r2) → r2.tokenRole = u.role)) ∧
    (findByEmail s body.email = none →
      (body.email ≠ "admin@gmail.com" → strOr body.doorNumber "" ≠ "" →
        findByDoor s (strOr body.doorNumber "") = none) →
      (userRole body = "user" → strOr body.doorNumber "" ≠ "") →
      m.valid (newUser s body) = true →
      (register m s body).2.isOk = true) := by
  have hrole : ∀ (m' : UserModel) (t : Store) (t' : Store) (r' : AuthReply),
      register m' t body = (t', .ok r') →
      t'.users = t.users ++ [{ newUser t body with password := m'.hash body.password }] ∧
        r'.tokenRole = userRole body ∧
        r' = authReply { newUser t body with password := m'.hash body.password } := by
    intro m' t t' r' h
    rcases register_cases m' t body with ⟨_, hfail, _⟩ | ⟨_, _, _, _, hok⟩
    · rw [h] at hfail
      have hft : true = false := hfail
      exact absurd hft (by decide)
    · rw [h] at hok
      injection hok with hs hr
      injection hr with hr
      subst hs hr
      exact ⟨rfl, rfl, rfl⟩
  constructor
  · intro s' r h
    obtain ⟨hu, _, hr⟩ := hrole m s s' r h
    subst hr
    refine ⟨_, hu, ?_, ?_, ?_, rfl, rfl, rfl, ?_⟩
    · intro he
      show userRole body = "admin"
      simp [userRole, he]
    · intro he t ht hne
      show userRole body = t
      simp [userRole, he, ht, strOr, hne]
    · intro he hb
      show userRole body = "user"
      rcases hb with hb | hb <;> simp [userRole, he, hb, strOr]
    · intro m2 s2 s2' r2 h2
      exact (hrole m2 s2 s2' r2 h2).2.1
  · intro he hd hr hv
    have h1 : ¬ (body.email ≠ "admin@gmail.com" ∧ strOr body.doorNumber "" ≠ "" ∧
        (findByDoor s (strOr body.doorNumber "")).isSome = true) := by
      rintro ⟨ha, hne, hsome⟩
      rw [hd ha hne] at hsome
      exact absurd hsome (by decide)
    have h2 : ¬ (userRole body = "user" ∧ strOr body.doorNumber "" = "") :=
      fun h => hr h.1 h.2
    unfold register
    simp [he, h1, h2, hv, Reply.isOk]

theorem register_role_witness :
    findByEmail storeResidents "carol@example.com" = none ∧
    findByDoor storeResidents "C-303" = none ∧
    (register sampleModel storeResidents
        { name := "Carol", email := "carol@example.com", password := "secret1",
          doorNumber := some "C-303" }).2.isOk = true ∧
    (∃ u, storeRegistered.users = storeResidents.users ++ [u] ∧ u.role = "user") :=
  have h := register_role sampleModel storeResidents
    { name := "Carol", email := "carol@example.com", password := "secret1",
      doorNumber := some "C-303" }
  have hok := h.2 (by decide) (fun _ _ => by decide) (fun _ => by decide) (by decide)
  ⟨by decide, by decide, hok, by
    obtain ⟨u, hu, _, _, huser, _⟩ := h.1 storeRegistered
      (authReply ⟨20, "Carol", "carol@example.com", "hashed:secret1", "user", some "C-303"⟩)
      (by decide)
    exact ⟨u, hu, huser (by decide) (Or.inl rfl)⟩⟩

/-! ## Uniqueness of emails and door numbers -/

theorem find_none_forall {α : Type} {p : α → Bool} {l : List α} (h : l.find? p = none) :
    ∀ x ∈ l, p x = false := by
  intro x hx
  have := List.find?_eq_none.mp h x hx
  simpa using this

/-- One successful or failed register call keeps emails and non-admin door
numbers pairwise distinct. -/
theorem register_unique (m : UserModel) (s : Store) (body : RegisterBody)
    (he : UniqueEmails s) (hd : UniqueDoors s) :
    UniqueEmails (register m s body).1 ∧ UniqueDoors (register m s body).1 := by
  rcases register_cases m s body with ⟨h, _, _⟩ | ⟨hemail, hdoor, hreq, _, hok⟩
  · rw [h]; exact ⟨he, hd⟩
  · rw [hok]
    constructor
    · show ((s.users ++ [{ newUser s body with password := m.hash body.password }]).map
          (fun u : User => u.email)).Nodup
      rw [List.map_append, List.map_singleton]
      apply List.Nodup.append he (List.nodup_singleton _)
      intro e he1 he2
      rw [List.mem_singleton] at he2
      obtain ⟨v, hv, hve⟩ := List.mem_map.mp he1
      have := find_none_forall hemail v hv
      have hne : v.email ≠ body.email := by simpa using this
      exact hne (hve.trans he2)
    · show (((s.users ++ [{ newUser s body with password := m.hash body.password }]).filter
          (fun u : User => u.role != "admin")).filterMap (fun u : User => u.doorNumber)).Nodup
      rw [List.filter_append, List.filterMap_append]
      by_cases hr : userRole body = "user"
      · have hne := hreq hr
        have hadm : body.email ≠ "admin@gmail.com" := by
          intro h
          simp [userRole, h] at hr
        have hfree := hdoor hadm hne
        have hnew : (([{ newUser s body with password := m.hash body.password }] : List User).filter
            (fun u => u.role != "admin")).filterMap (fun u => u.doorNumber)
              = [strOr body.doorNumber ""] := by
          simp [newUser, hr]
        rw [hnew]
        apply List.Nodup.append hd (List.nodup_singleton _)
        intro d hd1 hd2
        rw [List.mem_singleton] at hd2
        obtain ⟨v, hv, hvd⟩ := List.mem_filterMap.mp hd1
        have hv' : v ∈ s.users := (List.mem_filter.mp hv).1
        have := find_none_forall hfree v hv'
        have hne2 : v.doorNumber ≠ some (strOr body.doorNumber "") := by simpa using this
        exact hne2 (by rw [hvd, hd2])
      · have hnew : (([{ newUser s body with password := m.hash body.password }] : List User).filter
            (fun u => u.role != "admin")).filterMap (fun u => u.doorNumber) = [] := by
          by_cases hadmin : userRole body = "admin"
          · simp [newUser, hadmin]
          · simp [newUser, hr, hadmin]
        rw [hnew, List.append_nil]
        exact hd

/-- C27 (as stated) fails: with no account for `admin@gmail.com` in the store,
a register request with that email and with Alice's door number is accepted
and creates an account, although its door number equals an existing
account's. -/
theorem register_admin_skips_door_check :
    findByDoor storeResidents "A-101" = some alice ∧
    findByEmail storeResidents "admin@gmail.com" = none ∧
    (register sampleModel storeResidents
        { name := "Root", email := "admin@gmail.com", password := "secret1",
          doorNumber := some "A-101" }).2.isOk = true ∧
    (register sampleModel storeResidents
        { name := "Root", email := "admin@gmail.com", password := "secret1",
          doorNumber := some "A-101" }).1.users.length = storeResidents.users.length + 1 := by
  decide

/-- C27 (amended): starting from a store in which emails are pairwise distinct
and door numbers of non-admin accounts are pairwise distinct, the same holds
after any sequence of register calls; a register request whose email equals
an existing account's email is rejected (400) and creates no account, and so
is one whose non-empty door number equals an existing account's door number,
unless its email is `admin@gmail.com`, for which the door number is neither
checked nor stored. -/
theorem register_keeps_unique (m : UserModel) (s : Store) (he : UniqueEmails s)
    (hd : UniqueDoors s) :
    (∀ bodies, UniqueEmails (registerAll m s bodies) ∧ UniqueDoors (registerAll m s bodies)) ∧
    (∀ body v, findByEmail s body.email = some v →
      (register m s body).2.code = 400 ∧ (register m s body).1 = s) ∧
    (∀ body d v, body.doorNumber = some d → d ≠ "" → findByDoor s d = some v →
      body.email ≠ "admin@gmail.com" →
      (register m s body).2.code = 400 ∧ (register m s body).1 = s) ∧
    (∀ body s' r, body.email = "admin@gmail.com" → register m s body = (s', .ok r) →
      ∃ u, s'.users = s.users ++ [u] ∧ u.role = "admin" ∧ u.doorNumber = none) := by
  refine ⟨?_, ?_, ?_, ?_⟩
  · intro bodies
    induction bodies generalizing s with
    | nil => exact ⟨he, hd⟩
    | cons body rest ih =>
      obtain ⟨he', hd'⟩ := register_unique m s body he hd
      exact ih (register m s body).1 he' hd'
  · intro body v hv
    unfold register
    simp [hv, Reply.code]
  · intro body d v hb hne hv hadm
    have hdoor : strOr body.doorNumber "" = d := by rw [hb]; exact strOr_some hne
    unfold register
    cases hemail : findByEmail s body.email with
    | some w => simp [Reply.code]
    | none => simp [hdoor, hne, hv, hadm, Reply.code]
  · intro body s' r hadm h
    rcases register_cases m s body with ⟨_, hfail, _⟩ | ⟨_, _, _, _, hok⟩
    · rw [h] at hfail
      have hft : true = false := hfail
      exact absurd hft (by decide)
    · rw [h] at hok
      injection hok with hs _
      subst hs
      have hrole : userRole body = "admin" := by simp [userRole, hadm]
      refine ⟨_, rfl, hrole, ?_⟩
      show (if userRole body = "user" then some (strOr body.doorNumber "") else none) = none
      rw [hrole]
      rfl

theorem register_keeps_unique_witness :
    UniqueEmails storeResidents ∧ UniqueDoors storeResidents ∧
    (UniqueEmails (registerAll sampleModel storeResidents
        [{ name := "Carol", email := "carol@example.com", password := "secret1",
           doorNumber := some "C-303" },
         { name := "Eve", email := "eve@example.com", password := "secret2",
           doorNumber := some "C-303" }]) ∧
      UniqueDoors (registerAll sampleModel storeResidents
        [{ name := "Carol", email := "carol@example.com", password := "secret1",
           doorNumber := some "C-303" },
         { name := "Eve", email := "eve@example.com", password := "secret2",
           doorNumber := some "C-303" }])) ∧
    (register sampleModel storeResidents
        { name := "Eve", email := "eve@example.com", password := "secret2",
          doorNumber := some "A-101" }).2.code = 400 :=
  have he : UniqueEmails storeResidents := by unfold UniqueEmails; decide
  have hd : UniqueDoors storeResidents := by unfold UniqueDoors; decide
  have h := register_keeps_unique sampleModel storeResidents he hd
  ⟨he, hd, h.1 _,
    (h.2.2.1 { name := "Eve", email := "eve@example.com", password := "secret2",
               doorNumber := some "A-101" } "A-101" alice rfl (by decide) (by decide)
      (by decide)).1⟩

/-! ## The client route guard -/

/-- For a stored user whose email does not contain "admin", the guard of an
admin route decides by the role alone and leaves the stored user as it is. -/
theorem ProtectedRoute_without_admin_email (u : UserSummary)
    (h : includes u.email "admin" = false) :
    ProtectedRoute false (some u) (some "admin")
      = (if u.role = "admin" then Route.children else Route.toDashboard, some u) := by
  by_cases hr : u.role = "admin" <;> simp [ProtectedRoute, hr, h]

/-- C28, evaluated at the failing input: Bob and Mallory have the same stored
role `user` and different emails; for requiredRole `admin` the guard sends
Bob to the dashboard but admits Mallory, whose email contains "admin", and
rewrites her stored role to `admin`, where the specification requires the
same decision for both, admission only for role `admin`, and no rewriting.
The server-side guard decides by the stored role and denies Mallory. -/
theorem ProtectedRoute_admits_admin_email :
    bobStored.role = malloryStored.role ∧ malloryStored.role ≠ "admin" ∧
    ProtectedRoute false (some bobStored) (some "admin") = (.toDashboard, some bobStored) ∧
    ProtectedRoute false (some malloryStored) (some "admin")
      = (.children, some { malloryStored with role := "admin" }) ∧
    adminAllows storeLookalike (.valid 3) = false := by
  decide

/-! ## Obtaining a token -/

/-- The login route returns a token only for a password that matches the
stored hash of the account named by the email, and the token carries that
account's id. -/
theorem login_requires_password (m : UserModel) (s s' : Store) (body : LoginBody)
    (r : AuthReply) (h : login m s body = (s', .ok r)) :
    ∃ u pw, findByEmail s body.email = some u ∧ body.password = some pw ∧
      m.compare pw u.password = true ∧ r.tokenId = .account u.id := by
  unfold login at h
  cases hu : findByEmail s body.email with
  | none => rw [hu] at h; simp at h
  | some u =>
    rw [hu] at h
    by_cases hpw : u.password = ""
    · simp [hpw] at h
    · cases hb : body.password with
      | none => rw [hb] at h; simp [hpw] at h
      | some pw =>
        rw [hb] at h
        cases hcmp : m.compare pw u.password with
        | false => simp [hpw, hcmp] at h
        | true =>
          refine ⟨u, pw, rfl, rfl, hcmp, ?_⟩
          simp only [hpw, hcmp, if_false, Bool.not_true, Bool.false_eq_true] at h
          split at h
          · split at h
            · have h2 := congrArg Prod.snd h
              simp only [Reply.ok.injEq] at h2
              rw [← h2]
              rfl
            · have h2 := congrArg Prod.snd h
              simp at h2
          · have h2 := congrArg Prod.snd h
            simp only [Reply.ok.injEq] at h2
            rw [← h2]
            rfl

/-- The register route returns no token for an email that names an existing
account. -/
theorem register_existing_email (m : UserModel) (s : Store) (body : RegisterBody) (v : User)
    (h : findByEmail s body.email = some v) : (register m s body).2.isOk = false := by
  unfold register
  simp [h, Reply.isOk]

/-- C29, evaluated at the failing input: a direct-login request that names
Carol's email and carries no password at all is answered with a token
carrying Carol's id, which `protect` accepts as Carol, where the
specification lets a token be obtained only with the account's password;
the login route does refuse a wrong password for the same account. -/
theorem directLogin_needs_no_password :
    findByEmail storeRegistered "carol@example.com" = some carol ∧
    (login sampleModel storeRegistered
        { email := "carol@example.com", password := some "guess" }).2.isOk = false ∧
    directLogin env0 storeRegistered "carol@example.com"
      = (storeRegistered, .ok (authReply carol)) ∧
    (authReply carol).tokenId = .account carol.id ∧
    protect storeRegistered (authReply carol).tokenId.toToken = .ok carol :=
  ⟨by decide, by decide, by decide, rfl, rfl⟩

end ComplaintSystem
